import Mathlib

/-!
# Security groups of pkg/compute/models/secgroups.go

A shallow embedding of `SSecurityGroupManager.SyncSecgroups`,
`SSecurityGroup.SyncWithCloudSecurityGroup`, `SSecurityGroupManager.newFromCloudVpc`,
`SSecurityGroup.getSecurityRules` and `SSecurityGroup.PerformClone`.

The two tables (`secgroups_tbl` and the rule table) are an explicit `Store` that every
operation takes and returns.  Whatever the database decides on its own (whether a statement
fails, which UUID a new row gets) is an explicit environment argument.
-/

namespace Secgroups

/-! ## Data model -/

/-- Go `error` values that the file produces or passes on. -/
inductive Error where
  /-- The value of `httperrors.NewInputParameterError`. -/
  | InputParameterError (msg : String)
  /-- The value of `httperrors.NewDuplicateNameError`. -/
  | DuplicateNameError (msg : String)
  /-- Any error handed back by a collaborator (table, query or set comparison). -/
  | Other (msg : String)
  deriving DecidableEq, Repr

/-- The columns of `SSecurityGroup` (with those of the embedded
`db.SSharableVirtualResourceBase`) that the file reads or writes. -/
structure SSecurityGroup where
  Id : String
  Name : String
  Description : String
  ExternalId : String
  ProjectId : String
  IsDirty : Bool
  deriving DecidableEq, Repr

/-- The columns of `SSecurityGroupRule` that `PerformClone` reads or writes. -/
structure SSecurityGroupRule where
  Id : String
  Priority : Int
  Protocol : String
  Ports : String
  Direction : String
  CIDR : String
  Action : String
  Description : String
  SecgroupID : String
  deriving DecidableEq, Repr

/-- Modelled from the spec: a value of the interface `cloudprovider.ICloudSecurityGroup`
(declared outside this file), the remote resource
`RemoteResource{GlobalID, Name, Description}`; the three fields are what `GetGlobalId`,
`GetName` and `GetDescription` return. -/
structure ICloudSecurityGroup where
  GlobalId : String
  Name : String
  Description : String
  deriving DecidableEq, Repr

/-- Modelled from the spec: `compare.SyncResult` (declared outside this file), the
per-run tally "counts of: groups added, updated, update-errors, add-errors", together with
the errors handed to it. -/
structure SyncResult where
  AddCnt : Nat := 0
  AddErrCnt : Nat := 0
  UpdateCnt : Nat := 0
  UpdateErrCnt : Nat := 0
  errors : List Error := []
  deriving DecidableEq, Repr

namespace SyncResult

/-- Method `Error`: record an error without touching a counter. -/
def Error (r : SyncResult) (e : Secgroups.Error) : SyncResult :=
  { r with errors := r.errors ++ [e] }

/-- Method `Add`. -/
def Add (r : SyncResult) : SyncResult :=
  { r with AddCnt := r.AddCnt + 1 }

/-- Method `AddError`. -/
def AddError (r : SyncResult) (e : Secgroups.Error) : SyncResult :=
  { r with AddErrCnt := r.AddErrCnt + 1, errors := r.errors ++ [e] }

/-- Method `Update`. -/
def Update (r : SyncResult) : SyncResult :=
  { r with UpdateCnt := r.UpdateCnt + 1 }

/-- Method `UpdateError`. -/
def UpdateError (r : SyncResult) (e : Secgroups.Error) : SyncResult :=
  { r with UpdateErrCnt := r.UpdateErrCnt + 1, errors := r.errors ++ [e] }

end SyncResult

/-- The two tables, rows in insertion order. -/
structure Store where
  groups : List SSecurityGroup
  rules : List SSecurityGroupRule
  deriving DecidableEq, Repr

/-! ## The persistence layer -/

/-- Modelled from the spec: `TableSpec().Insert` on the group table
(`Insert(SecurityGroup) -> error`, "local id (assigned by store, stable, opaque)").
`outcome` is what the database does with the statement: an error, or the UUID it gives
a row that comes without an id.  A failed insert leaves the table alone. -/
def Store.insertGroup (s : Store) (g : SSecurityGroup) (outcome : Except Error String) :
    Except Error (Store × SSecurityGroup) :=
  match outcome with
  | .error e => .error e
  | .ok uuid =>
    let g1 : SSecurityGroup := { g with Id := if g.Id = "" then uuid else g.Id }
    .ok ({ s with groups := s.groups ++ [g1] }, g1)

/-- Modelled from the spec: `TableSpec().Insert` on the rule table
(`Insert(SecurityGroupRule) -> error`), as `Store.insertGroup`. -/
def Store.insertRule (s : Store) (r : SSecurityGroupRule) (outcome : Except Error String) :
    Except Error (Store × SSecurityGroupRule) :=
  match outcome with
  | .error e => .error e
  | .ok uuid =>
    let r1 : SSecurityGroupRule := { r with Id := if r.Id = "" then uuid else r.Id }
    .ok ({ s with rules := s.rules ++ [r1] }, r1)

/-- Modelled from the spec: the statement that `TableSpec().Update` issues
(`Update(id, mutator) -> error`): the mutation is applied to the row whose primary key is
`id`, every other row is left alone. -/
def Store.updateGroup (s : Store) (id : String) (f : SSecurityGroup → SSecurityGroup) : Store :=
  { s with groups := s.groups.map (fun g => if g.Id = id then f g else g) }

/-! ## Reconciliation -/

/-- The four output slices of `compare.CompareSets`. -/
structure Partition where
  removed : List SSecurityGroup
  commondb : List SSecurityGroup
  commonext : List ICloudSecurityGroup
  added : List ICloudSecurityGroup
  deriving DecidableEq, Repr

/-- What the database does during one run of `SyncSecgroups`. -/
structure SyncEnv where
  /-- The error of `db.FetchModelObjects` in `getSecurityGroups`, if any. -/
  listErr : Option Error
  /-- The error of the `Update` for `commondb[i]`, if any. -/
  updateErr : Nat → Option Error
  /-- The outcome of the `Insert` for `added[i]`: an error or the new UUID. -/
  insertOutcome : Nat → Except Error String

/-- The method `getSecurityGroups`: every row of the group table, or the query error. -/
def getSecurityGroups (s : Store) (listErr : Option Error) : Except Error (List SSecurityGroup) :=
  match listErr with
  | some e => .error e
  | none => .ok s.groups

/-- The closure of `SyncWithCloudSecurityGroup`: `self.Name = extSec.GetName()`,
`self.Description = extSec.GetDescription()`. -/
def syncFields (extSec : ICloudSecurityGroup) (g : SSecurityGroup) : SSecurityGroup :=
  { g with Name := extSec.Name, Description := extSec.Description }

/-- The method `SyncWithCloudSecurityGroup`.  `Update` runs the closure on the receiver and
then saves; `err` is the error of the save, if any.  Returns the store, the receiver as it is
after the call, and the returned error. -/
def SyncWithCloudSecurityGroup (s : Store) (self : SSecurityGroup) (extSec : ICloudSecurityGroup)
    (err : Option Error) : Store × SSecurityGroup × Option Error :=
  let self1 := syncFields extSec self
  match err with
  | some e => (s, self1, some e)
  | none => (s.updateGroup self.Id (syncFields extSec), self1, none)

/-- The method `newFromCloudVpc`. -/
def newFromCloudVpc (s : Store) (extSecgroup : ICloudSecurityGroup)
    (outcome : Except Error String) : Except Error (Store × SSecurityGroup) :=
  let secgroup : SSecurityGroup :=
    { Id := "", Name := extSecgroup.Name, Description := extSecgroup.Description,
      ExternalId := extSecgroup.GlobalId, ProjectId := "", IsDirty := false }
  s.insertGroup secgroup outcome

/-- The variables that the two loops of `SyncSecgroups` change. -/
structure LoopState where
  store : Store
  localSecgroups : List SSecurityGroup
  remoteSecgroups : List ICloudSecurityGroup
  syncResult : SyncResult
  deriving DecidableEq, Repr

/-- The first loop of `SyncSecgroups`, from index `i` on; the two lists are what is left of
`commondb` and `commonext`.  The flag is `true` when `commonext[i]` is out of range. -/
def syncCommon (updateErr : Nat → Option Error) :
    Nat → List SSecurityGroup → List ICloudSecurityGroup → LoopState → LoopState × Bool
  | _, [], _, st => (st, false)
  | _, _ :: _, [], st => (st, true)
  | i, l :: ls, r :: rs, st =>
    match SyncWithCloudSecurityGroup st.store l r (updateErr i) with
    | (s1, _, some e) =>
      syncCommon updateErr (i + 1) ls rs
        { st with store := s1, syncResult := st.syncResult.UpdateError e }
    | (s1, l1, none) =>
      syncCommon updateErr (i + 1) ls rs
        { store := s1, localSecgroups := st.localSecgroups ++ [l1],
          remoteSecgroups := st.remoteSecgroups ++ [r], syncResult := st.syncResult.Update }

/-- The second loop of `SyncSecgroups`, from index `i` on; the list is what is left of
`added`. -/
def syncAdded (insertOutcome : Nat → Except Error String) :
    Nat → List ICloudSecurityGroup → LoopState → LoopState
  | _, [], st => st
  | i, r :: rs, st =>
    match newFromCloudVpc st.store r (insertOutcome i) with
    | .error e =>
      syncAdded insertOutcome (i + 1) rs { st with syncResult := st.syncResult.AddError e }
    | .ok (s1, new) =>
      syncAdded insertOutcome (i + 1) rs
        { store := s1, localSecgroups := st.localSecgroups ++ [new],
          remoteSecgroups := st.remoteSecgroups ++ [r], syncResult := st.syncResult.Add }

/-- How a call of `SyncSecgroups` ends. -/
inductive SyncOutcome where
  /-- The early `return nil, nil, syncResult`. -/
  | aborted (syncResult : SyncResult)
  /-- The run-time panic of an index out of range. -/
  | indexPanic
  /-- The final `return localSecgroups, remoteSecgroups, syncResult`. -/
  | done (localSecgroups : List SSecurityGroup) (remoteSecgroups : List ICloudSecurityGroup)
      (syncResult : SyncResult)
  deriving DecidableEq, Repr

/-- The method `SyncSecgroups`.  `compareSets` stands for `compare.CompareSets`, which lives
outside this file: it is given the rows and the remote list and returns an error or the four
slices. -/
def SyncSecgroups (compareSets : List SSecurityGroup → List ICloudSecurityGroup →
      Except Error Partition)
    (s : Store) (secgroups : List ICloudSecurityGroup) (env : SyncEnv) : Store × SyncOutcome :=
  let syncResult : SyncResult := {}
  match getSecurityGroups s env.listErr with
  | .error err => (s, .aborted (syncResult.Error err))
  | .ok dbSecgroups =>
    match compareSets dbSecgroups secgroups with
    | .error err => (s, .aborted (syncResult.Error err))
    | .ok p =>
      match syncCommon env.updateErr 0 p.commondb p.commonext
          { store := s, localSecgroups := [], remoteSecgroups := [], syncResult := syncResult } with
      | (st, true) => (st.store, .indexPanic)
      | (st1, false) =>
        let st2 := syncAdded env.insertOutcome 0 p.added st1
        (st2.store, .done st2.localSecgroups st2.remoteSecgroups st2.syncResult)

/-- Modelled from the spec: `compare.CompareSets` (package `compare` is not part of this
file), the "three-way diff by identity key": *removed* are the "local groups whose external id
has no match in remoteSnapshot", *common pairs* are the "(local, remote) pairs sharing an
identity key" in "order of appearance in remoteSnapshot", *added* are the "remote resources
with no local counterpart", and "ties on identity key are a data-integrity violation and must
fail the run". -/
def CompareSets (dbSet : List SSecurityGroup) (extSet : List ICloudSecurityGroup) :
    Except Error Partition :=
  if (extSet.map (·.GlobalId)).Nodup ∧
      ∀ r ∈ extSet, (dbSet.map (·.ExternalId)).count r.GlobalId ≤ 1 then
    let pairs := extSet.filterMap fun r =>
      (dbSet.find? fun l => l.ExternalId = r.GlobalId).map fun l => (l, r)
    .ok { removed := dbSet.filter fun l => ∀ r ∈ extSet, r.GlobalId ≠ l.ExternalId
          commondb := pairs.map Prod.fst
          commonext := pairs.map Prod.snd
          added := extSet.filter fun r => ∀ l ∈ dbSet, l.ExternalId ≠ r.GlobalId }
  else
    .error (.Other "identity conflict")

/-! ## Clone -/

/-- Modelled from the spec: a `jsonutils.JSONObject` (package `jsonutils` is not part of this
file), here the request body that carries `newName` and `description`: a dictionary of string
fields. -/
abbrev JSONObject := List (String × String)

/-- Modelled from the spec: `GetString` with its error dropped, as every call in the file
drops it: the field, or the empty string when the field is missing. -/
def JSONObject.GetString (data : JSONObject) (key : String) : String :=
  (data.lookup key).getD ""

/-- Modelled from the spec: a `mcclient.TokenCredential` (declared outside this file), the
caller and its `ownerScope`; the field is what `GetTenantId` returns. -/
structure TokenCredential where
  TenantId : String
  deriving DecidableEq, Repr

/-- Modelled from the spec: `SecurityGroupManager.Query()`, `FilterByName(sql, name)` and
`Count()` (the query builder is not part of this file), `FindByName(scope, name) -> count`.
The call hands over the query and the name only, so the rows counted are the rows with that
name. -/
def countByName (s : Store) (name : String) : Nat :=
  (s.groups.filter fun g => g.Name = name).length

/-- What the database does during one call of `PerformClone`. -/
structure CloneEnv where
  /-- The outcome of the `Insert` of the new group: an error or the new UUID. -/
  insertGroupOutcome : Except Error String
  /-- The error of `db.FetchModelObjects` in `getSecurityRules`, if any. -/
  fetchRulesErr : Option Error
  /-- The outcome of the `Insert` of the copy of the `i`-th rule. -/
  insertRuleOutcome : Nat → Except Error String

/-- The method `getSecurityRules`: the rows of the rule table whose `secgroup_id` is the id of
the receiver; when the query fails the error is logged and `nil` is returned. -/
def getSecurityRules (s : Store) (self : SSecurityGroup) (fetchErr : Option Error) :
    List SSecurityGroupRule :=
  match fetchErr with
  | some _ => []
  | none => s.rules.filter fun r => r.SecgroupID = self.Id

/-- The body of the loop of `PerformClone`: the row that is inserted for `rule`. -/
def copyRule (secgroupId : String) (rule : SSecurityGroupRule) : SSecurityGroupRule :=
  { Id := "", Priority := rule.Priority, Protocol := rule.Protocol, Ports := rule.Ports,
    Direction := rule.Direction, CIDR := rule.CIDR, Action := rule.Action,
    Description := rule.Description, SecgroupID := secgroupId }

/-- The loop of `PerformClone`, from the `i`-th rule on; it ends with the first error. -/
def cloneRules (insertRuleOutcome : Nat → Except Error String) (secgroupId : String) :
    Nat → List SSecurityGroupRule → Store → Store × Option Error
  | _, [], s => (s, none)
  | i, rule :: rest, s =>
    match s.insertRule (copyRule secgroupId rule) (insertRuleOutcome i) with
    | .error err => (s, some err)
    | .ok (s1, _) => cloneRules insertRuleOutcome secgroupId (i + 1) rest s1

/-- The method `PerformClone`: the store afterwards, the returned object (`none` is `nil`) and
the returned error. -/
def PerformClone (s : Store) (self : SSecurityGroup) (userCred : TokenCredential)
    (data : JSONObject) (env : CloneEnv) : Store × Option JSONObject × Option Error :=
  let name := data.GetString "name"
  if name.length = 0 then
    (s, none, some (.InputParameterError "Missing name params"))
  else if countByName s name ≠ 0 then
    (s, none, some (.DuplicateNameError ("Dumplicate name " ++ name)))
  else
    let secgroup : SSecurityGroup :=
      { Id := "", Name := data.GetString "name", Description := data.GetString "description",
        ExternalId := "", ProjectId := userCred.TenantId, IsDirty := false }
    match s.insertGroup secgroup env.insertGroupOutcome with
    | .error err => (s, none, some err)
    | .ok (s1, secgroup1) =>
      let secgrouprules := getSecurityRules s1 self env.fetchRulesErr
      match cloneRules env.insertRuleOutcome secgroup1.Id 0 secgrouprules s1 with
      | (s2, some err) => (s2, none, some err)
      | (s2, none) => (s2, none, none)

/-! ## What the loops compute -/

/-- The pairs `(commondb[j], commonext[j])` whose update succeeds, `j` counted from `i`. -/
def updatedPairs (updateErr : Nat → Option Error) (i : Nat) (ls : List SSecurityGroup)
    (rs : List ICloudSecurityGroup) : List (SSecurityGroup × ICloudSecurityGroup) :=
  (((ls.zip rs).enumFrom i).filter fun x => (updateErr x.1).isNone).map Prod.snd

/-- The errors of the updates that fail, in order. -/
def updateFailures (updateErr : Nat → Option Error) (i : Nat) (ls : List SSecurityGroup)
    (rs : List ICloudSecurityGroup) : List Error :=
  ((ls.zip rs).enumFrom i).filterMap fun x => updateErr x.1

/-- The group table after the updates of the given pairs, one after the other. -/
def applyUpdates (pairs : List (SSecurityGroup × ICloudSecurityGroup))
    (groups : List SSecurityGroup) : List SSecurityGroup :=
  pairs.foldl (fun gs x => gs.map fun g => if g.Id = x.1.Id then syncFields x.2 g else g) groups

/-- The row that a successful `newFromCloudVpc` inserts for `r` when the store hands out
`uuid`. -/
def newRow (uuid : String) (r : ICloudSecurityGroup) : SSecurityGroup :=
  { Id := uuid, Name := r.Name, Description := r.Description, ExternalId := r.GlobalId,
    ProjectId := "", IsDirty := false }

/-- The new rows with their remote resources, for the items of `added` whose insert
succeeds, counted from `i`. -/
def insertedRows (insertOutcome : Nat → Except Error String) (i : Nat)
    (added : List ICloudSecurityGroup) : List (SSecurityGroup × ICloudSecurityGroup) :=
  (added.enumFrom i).filterMap fun x =>
    match insertOutcome x.1 with
    | .ok uuid => some (newRow uuid x.2, x.2)
    | .error _ => none

/-- The errors of the inserts that fail, in order. -/
def insertFailures (insertOutcome : Nat → Except Error String) (i : Nat)
    (added : List ICloudSecurityGroup) : List Error :=
  (added.enumFrom i).filterMap fun x =>
    match insertOutcome x.1 with
    | .ok _ => none
    | .error e => some e

/-- The state after both loops, in closed form. -/
def finalState (s : Store) (p : Partition) (env : SyncEnv) : LoopState :=
  { store := { groups := applyUpdates (updatedPairs env.updateErr 0 p.commondb p.commonext)
                   s.groups ++ (insertedRows env.insertOutcome 0 p.added).map Prod.fst
               rules := s.rules }
    localSecgroups :=
      ((updatedPairs env.updateErr 0 p.commondb p.commonext).map fun x => syncFields x.2 x.1) ++
        (insertedRows env.insertOutcome 0 p.added).map Prod.fst
    remoteSecgroups :=
      (updatedPairs env.updateErr 0 p.commondb p.commonext).map Prod.snd ++
        (insertedRows env.insertOutcome 0 p.added).map Prod.snd
    syncResult :=
      { AddCnt := (insertedRows env.insertOutcome 0 p.added).length
        AddErrCnt := (insertFailures env.insertOutcome 0 p.added).length
        UpdateCnt := (updatedPairs env.updateErr 0 p.commondb p.commonext).length
        UpdateErrCnt := (updateFailures env.updateErr 0 p.commondb p.commonext).length
        errors := updateFailures env.updateErr 0 p.commondb p.commonext ++
          insertFailures env.insertOutcome 0 p.added } }

/-- The fields of a group that a sync must leave alone: local id, external id, owning project
and dirty flag. -/
def SSecurityGroup.keptFields (g : SSecurityGroup) : String × String × String × Bool :=
  (g.Id, g.ExternalId, g.ProjectId, g.IsDirty)

/-- The fields of a rule that a clone copies: priority, protocol, ports, direction, CIDR,
action and description. -/
def SSecurityGroupRule.copiedFields (r : SSecurityGroupRule) :
    Int × String × String × String × String × String × String :=
  (r.Priority, r.Protocol, r.Ports, r.Direction, r.CIDR, r.Action, r.Description)

/-- The group row that `PerformClone` inserts when the store hands out `uuid`. -/
def clonedGroup (uuid : String) (userCred : TokenCredential) (data : JSONObject) :
    SSecurityGroup :=
  { Id := uuid, Name := data.GetString "name", Description := data.GetString "description",
    ExternalId := "", ProjectId := userCred.TenantId, IsDirty := false }

/-- The rule rows that the loop of `PerformClone` inserts before it ends: the copies of the
rules up to the first insert that fails. -/
def insertedCopies (insertRuleOutcome : Nat → Except Error String) (secgroupId : String) :
    Nat → List SSecurityGroupRule → List SSecurityGroupRule
  | _, [] => []
  | i, rule :: rest =>
    match insertRuleOutcome i with
    | .error _ => []
    | .ok uuid =>
      { copyRule secgroupId rule with Id := uuid } ::
        insertedCopies insertRuleOutcome secgroupId (i + 1) rest

/-- The error of the first rule insert that fails, if any. -/
def firstRuleError (insertRuleOutcome : Nat → Except Error String) :
    Nat → List SSecurityGroupRule → Option Error
  | _, [] => none
  | i, _ :: rest =>
    match insertRuleOutcome i with
    | .error e => some e
    | .ok _ => firstRuleError insertRuleOutcome (i + 1) rest

/-! ## The contract of the partition -/

/-- The partition pairs a local group with the remote resource of the same identity key at
the same index: `commondb[i].GetExternalId() = commonext[i].GetGlobalId()` for every `i`, and
the two slices are equally long. -/
def Partition.Aligned (p : Partition) : Prop :=
  p.commondb.map (·.ExternalId) = p.commonext.map (·.GlobalId)

/-- The matched pairs of `p` are rows of `L` paired with remote resources of `R` that carry
the same identity key. -/
def Partition.PairsOf (p : Partition) (L : List SSecurityGroup)
    (R : List ICloudSecurityGroup) : Prop :=
  p.Aligned ∧ (∀ l ∈ p.commondb, l ∈ L) ∧ (∀ r ∈ p.commonext, r ∈ R)

/-- The slices `p` are a three-way diff of the rows `L` and the remote list `R` by identity
key: the matched pairs are rows paired with remote resources of the same key, the added slice
takes each remote resource at most as often as `R` has it (in whatever order), every remote
resource is matched or added, and no row carries the identity key of an added resource. -/
def Partition.IsDiffOf (p : Partition) (L : List SSecurityGroup)
    (R : List ICloudSecurityGroup) : Prop :=
  p.PairsOf L R ∧ p.added.Subperm R ∧ (∀ r ∈ R, r ∈ p.commonext ∨ r ∈ p.added) ∧
    ∀ a ∈ p.added, ∀ l ∈ L, l.ExternalId ≠ a.GlobalId

/-- No ties on an identity key: no two remote resources share a global id and no global id of
a remote resource is the external id of two rows. -/
def NoTies (L : List SSecurityGroup) (R : List ICloudSecurityGroup) : Prop :=
  (R.map (·.GlobalId)).Nodup ∧ ∀ r ∈ R, (L.map (·.ExternalId)).count r.GlobalId ≤ 1

instance (p : Partition) : Decidable p.Aligned := by
  unfold Partition.Aligned
  infer_instance

instance (p : Partition) (L : List SSecurityGroup) (R : List ICloudSecurityGroup) :
    Decidable (p.PairsOf L R) := by
  unfold Partition.PairsOf
  infer_instance

instance (p : Partition) (L : List SSecurityGroup) (R : List ICloudSecurityGroup) :
    Decidable (p.IsDiffOf L R) := by
  unfold Partition.IsDiffOf
  infer_instance

instance (L : List SSecurityGroup) (R : List ICloudSecurityGroup) : Decidable (NoTies L R) := by
  unfold NoTies
  infer_instance

/-- What a second run needs of `compare.CompareSets`: on rows and a remote list without ties
it does not fail, and what it returns there is a three-way diff by identity key.  Nothing is
asked of it where there are ties, nor of the order of its slices. -/
def CompareContract
    (cmp : List SSecurityGroup → List ICloudSecurityGroup → Except Error Partition) : Prop :=
  ∀ L R, NoTies L R → ∃ p, cmp L R = .ok p ∧ p.IsDiffOf L R

/-- The fields that one returned local group shares with its remote resource. -/
def Corresponds (l : SSecurityGroup) (r : ICloudSecurityGroup) : Prop :=
  l.Name = r.Name ∧ l.Description = r.Description ∧ l.ExternalId = r.GlobalId

/-! ## Sample data -/

/-- The order of identity keys: the order of their code points, one after the other. -/
def keyLe (a b : String) : Prop :=
  a.data.map Char.toNat ≤ b.data.map Char.toNat

instance : DecidableRel keyLe := fun a b => by
  unfold keyLe
  infer_instance

/-- The three-way diff of `CompareSets` taken after the rows and the remote list are put in
key order, as a comparison that sorts and merges takes it: the slices come out in key order,
not in the order of the remote list. -/
def CompareSetsByKey (dbSet : List SSecurityGroup) (extSet : List ICloudSecurityGroup) :
    Except Error Partition :=
  CompareSets (dbSet.insertionSort fun a b => keyLe a.ExternalId b.ExternalId)
    (extSet.insertionSort fun a b => keyLe a.GlobalId b.GlobalId)

/-- The local group of the example in the spec. -/
def sampleGroup : SSecurityGroup :=
  { Id := "1", Name := "web", Description := "", ExternalId := "sg-a", ProjectId := "p1",
    IsDirty := false }

/-- The remote resource of the example in the spec. -/
def sampleRemote : ICloudSecurityGroup :=
  { GlobalId := "sg-a", Name := "web-updated", Description := "" }

/-- A remote resource nobody knows locally. -/
def sampleRemoteB : ICloudSecurityGroup :=
  { GlobalId := "sg-b", Name := "db", Description := "database" }

/-- A rule of `sampleGroup`. -/
def sampleRule : SSecurityGroupRule :=
  { Id := "r1", Priority := 1, Protocol := "tcp", Ports := "22", Direction := "in",
    CIDR := "0.0.0.0/0", Action := "allow", Description := "ssh", SecgroupID := "1" }

/-- A store with `sampleGroup` and its rule. -/
def sampleStore : Store := { groups := [sampleGroup], rules := [sampleRule] }

/-- Another remote resource nobody knows locally. -/
def sampleRemoteC : ICloudSecurityGroup :=
  { GlobalId := "sg-c", Name := "cache", Description := "" }

/-- A run in which every statement succeeds; new rows get the ids `n`, `nn`, `nnn`, ... -/
def okSyncEnv : SyncEnv :=
  { listErr := none, updateErr := fun _ => none,
    insertOutcome := fun i => .ok (String.mk (List.replicate (i + 1) 'n')) }

/-- A run in which the first insert fails and every other statement succeeds. -/
def flakySyncEnv : SyncEnv :=
  { listErr := none, updateErr := fun _ => none,
    insertOutcome := fun i =>
      if i = 0 then .error (.Other "insert failed")
      else .ok (String.mk (List.replicate (i + 1) 'n')) }

/-- A group that was created locally and has no external id. -/
def localOnlyGroup : SSecurityGroup :=
  { Id := "2", Name := "office", Description := "", ExternalId := "", ProjectId := "p1",
    IsDirty := true }

/-- A store with `sampleGroup`, its rule and `localOnlyGroup`. -/
def mixedStore : Store := { groups := [sampleGroup, localOnlyGroup], rules := [sampleRule] }

/-- The empty store. -/
def emptyStore : Store := { groups := [], rules := [] }

/-- The caller of the clone examples. -/
def sampleCred : TokenCredential := { TenantId := "p1" }

/-- A request to clone under the name `web2`. -/
def sampleCloneData : JSONObject := [("name", "web2"), ("description", "copy of web")]

/-- A clone in which every statement succeeds; the group gets the id `g2`, the rules get the
ids `c`, `cc`, ... -/
def okCloneEnv : CloneEnv :=
  { insertGroupOutcome := .ok "g2", fetchRulesErr := none,
    insertRuleOutcome := fun i => .ok (String.mk (List.replicate (i + 1) 'c')) }

/-- A clone in which the listing of the rules fails and every insert succeeds. -/
def failingFetchEnv : CloneEnv :=
  { insertGroupOutcome := .ok "g2", fetchRulesErr := some (.Other "query failed"),
    insertRuleOutcome := fun i => .ok (String.mk (List.replicate (i + 1) 'c')) }

/-- A clone in which the insert of the group succeeds and every rule insert fails. -/
def failingRuleEnv : CloneEnv :=
  { insertGroupOutcome := .ok "g2", fetchRulesErr := none,
    insertRuleOutcome := fun _ => .error (.Other "insert failed") }

/-- A run in which every insert fails. -/
def failingInsertEnv : SyncEnv :=
  { listErr := none, updateErr := fun _ => none,
    insertOutcome := fun _ => .error (.Other "insert failed") }

end Secgroups

namespace Secgroups

/-! ## The loops in closed form -/

theorem syncCommon_eq (updateErr : Nat → Option Error) (ls : List SSecurityGroup) :
    ∀ (rs : List ICloudSecurityGroup) (i : Nat) (st : LoopState),
      syncCommon updateErr i ls rs st =
        ({ store := { groups := applyUpdates (updatedPairs updateErr i ls rs) st.store.groups
                      rules := st.store.rules }
           localSecgroups := st.localSecgroups ++
             (updatedPairs updateErr i ls rs).map fun x => syncFields x.2 x.1
           remoteSecgroups := st.remoteSecgroups ++
             (updatedPairs updateErr i ls rs).map Prod.snd
           syncResult :=
             { AddCnt := st.syncResult.AddCnt
               AddErrCnt := st.syncResult.AddErrCnt
               UpdateCnt := st.syncResult.UpdateCnt + (updatedPairs updateErr i ls rs).length
               UpdateErrCnt := st.syncResult.UpdateErrCnt +
                 (updateFailures updateErr i ls rs).length
               errors := st.syncResult.errors ++ updateFailures updateErr i ls rs } },
         decide (rs.length < ls.length)) := by
  induction ls with
  | nil =>
    intro rs i st
    simp [syncCommon, updatedPairs, updateFailures, applyUpdates]
  | cons l ls ih =>
    intro rs i st
    cases rs with
    | nil => simp [syncCommon, updatedPairs, updateFailures, applyUpdates]
    | cons r rs =>
      cases h : updateErr i with
      | none =>
        simp [syncCommon, SyncWithCloudSecurityGroup, h, ih, updatedPairs, updateFailures,
          applyUpdates, List.enumFrom_cons, Store.updateGroup, SyncResult.Update,
          Nat.add_assoc, Nat.add_comm 1]
      | some e =>
        simp [syncCommon, SyncWithCloudSecurityGroup, h, ih, updatedPairs, updateFailures,
          applyUpdates, List.enumFrom_cons, SyncResult.UpdateError,
          Nat.add_assoc, Nat.add_comm 1]

theorem syncAdded_eq (insertOutcome : Nat → Except Error String)
    (added : List ICloudSecurityGroup) :
    ∀ (i : Nat) (st : LoopState),
      syncAdded insertOutcome i added st =
        { store := { groups := st.store.groups ++
                       (insertedRows insertOutcome i added).map Prod.fst
                     rules := st.store.rules }
          localSecgroups := st.localSecgroups ++
            (insertedRows insertOutcome i added).map Prod.fst
          remoteSecgroups := st.remoteSecgroups ++
            (insertedRows insertOutcome i added).map Prod.snd
          syncResult :=
            { AddCnt := st.syncResult.AddCnt + (insertedRows insertOutcome i added).length
              AddErrCnt := st.syncResult.AddErrCnt +
                (insertFailures insertOutcome i added).length
              UpdateCnt := st.syncResult.UpdateCnt
              UpdateErrCnt := st.syncResult.UpdateErrCnt
              errors := st.syncResult.errors ++ insertFailures insertOutcome i added } } := by
  induction added with
  | nil =>
    intro i st
    simp [syncAdded, insertedRows, insertFailures]
  | cons r rs ih =>
    intro i st
    cases h : insertOutcome i with
    | error e =>
      simp [syncAdded, newFromCloudVpc, Store.insertGroup, h, ih, insertedRows, insertFailures,
        List.enumFrom_cons, SyncResult.AddError, Nat.add_assoc, Nat.add_comm 1]
    | ok uuid =>
      simp [syncAdded, newFromCloudVpc, Store.insertGroup, h, ih, insertedRows, insertFailures,
        List.enumFrom_cons, SyncResult.Add, newRow, Nat.add_assoc, Nat.add_comm 1]

theorem SyncSecgroups_eq (cmp : List SSecurityGroup → List ICloudSecurityGroup →
      Except Error Partition)
    (s : Store) (R : List ICloudSecurityGroup) (env : SyncEnv) (p : Partition)
    (hlist : env.listErr = none) (hcmp : cmp s.groups R = .ok p)
    (hlen : p.commondb.length ≤ p.commonext.length) :
    SyncSecgroups cmp s R env =
      ((finalState s p env).store,
        .done (finalState s p env).localSecgroups (finalState s p env).remoteSecgroups
          (finalState s p env).syncResult) := by
  simp [SyncSecgroups, getSecurityGroups, hlist, hcmp, syncCommon_eq, syncAdded_eq,
    Nat.not_lt.mpr hlen, finalState]

theorem SyncSecgroups_panic (cmp : List SSecurityGroup → List ICloudSecurityGroup →
      Except Error Partition)
    (s : Store) (R : List ICloudSecurityGroup) (env : SyncEnv) (p : Partition)
    (hlist : env.listErr = none) (hcmp : cmp s.groups R = .ok p)
    (hlen : p.commonext.length < p.commondb.length) :
    SyncSecgroups cmp s R env =
      ({ groups := applyUpdates (updatedPairs env.updateErr 0 p.commondb p.commonext) s.groups
         rules := s.rules }, .indexPanic) := by
  simp [SyncSecgroups, getSecurityGroups, hlist, hcmp, syncCommon_eq, hlen]

/-! ## Counting -/

theorem updatedPairs_length_add (updateErr : Nat → Option Error) (ls : List SSecurityGroup) :
    ∀ (rs : List ICloudSecurityGroup) (i : Nat), ls.length ≤ rs.length →
      (updatedPairs updateErr i ls rs).length + (updateFailures updateErr i ls rs).length =
        ls.length := by
  induction ls with
  | nil => intro rs i _; simp [updatedPairs, updateFailures]
  | cons l ls ih =>
    intro rs i h
    cases rs with
    | nil => simp at h
    | cons r rs =>
      have h1 : ls.length ≤ rs.length := by simpa using h
      have := ih rs (i + 1) h1
      simp only [updatedPairs, updateFailures, List.length_map] at this ⊢
      cases hu : updateErr i <;>
        simp [List.enumFrom_cons, List.filter_cons, List.filterMap_cons, hu] <;> omega

theorem updatedPairs_length (updateErr : Nat → Option Error) (ls : List SSecurityGroup) :
    ∀ (rs : List ICloudSecurityGroup) (i : Nat), ls.length ≤ rs.length →
      (updatedPairs updateErr i ls rs).length =
        ((List.range' i ls.length).filter fun j => (updateErr j).isNone).length := by
  induction ls with
  | nil => intro rs i _; simp [updatedPairs]
  | cons l ls ih =>
    intro rs i h
    cases rs with
    | nil => simp at h
    | cons r rs =>
      have h1 : ls.length ≤ rs.length := by simpa using h
      have := ih rs (i + 1) h1
      simp only [updatedPairs] at this ⊢
      cases hu : updateErr i <;>
        simp [List.enumFrom_cons, List.filter_cons, List.range'_succ, hu] <;> simpa using this

theorem insertedRows_length_add (insertOutcome : Nat → Except Error String)
    (added : List ICloudSecurityGroup) :
    ∀ i : Nat, (insertedRows insertOutcome i added).length +
      (insertFailures insertOutcome i added).length = added.length := by
  induction added with
  | nil => intro i; simp [insertedRows, insertFailures]
  | cons r rs ih =>
    intro i
    have := ih (i + 1)
    simp only [insertedRows, insertFailures] at this ⊢
    cases hu : insertOutcome i <;>
      simp [List.enumFrom_cons, List.filterMap_cons, hu] <;> omega

theorem insertedRows_length (insertOutcome : Nat → Except Error String)
    (added : List ICloudSecurityGroup) :
    ∀ i : Nat, (insertedRows insertOutcome i added).length =
      ((List.range' i added.length).filter fun j => (insertOutcome j).isOk).length := by
  induction added with
  | nil => intro i; simp [insertedRows]
  | cons r rs ih =>
    intro i
    have := ih (i + 1)
    simp only [insertedRows] at this ⊢
    cases hu : insertOutcome i <;>
      simp [List.enumFrom_cons, List.filterMap_cons, List.filter_cons, List.range'_succ, hu,
        Except.isOk, Except.toBool] <;> simpa using this

/-! ## Partial-failure isolation -/

/-- C1: a run of `SyncSecgroups` that gets past listing and partitioning (with `commonext[i]`
in range for every `i < len(commondb)`) reaches its final return whatever the pattern of
failed updates and inserts; it attempts every matched pair and every added resource: the
update count is the number of indices whose update succeeds, the add count is the number of
indices whose insert succeeds, update count plus update-error count is the number of matched
pairs and add count plus add-error count is the number of added items. -/
theorem SyncSecgroups_isolates_failures
    (cmp : List SSecurityGroup → List ICloudSecurityGroup → Except Error Partition)
    (s : Store) (R : List ICloudSecurityGroup) (env : SyncEnv) (p : Partition)
    (hlist : env.listErr = none) (hcmp : cmp s.groups R = .ok p)
    (hlen : p.commondb.length ≤ p.commonext.length) :
    ∃ s1 locals remotes res,
      SyncSecgroups cmp s R env = (s1, .done locals remotes res) ∧
      res.UpdateCnt =
        ((List.range p.commondb.length).filter fun j => (env.updateErr j).isNone).length ∧
      res.AddCnt =
        ((List.range p.added.length).filter fun j => (env.insertOutcome j).isOk).length ∧
      res.UpdateCnt + res.UpdateErrCnt = p.commondb.length ∧
      res.AddCnt + res.AddErrCnt = p.added.length ∧
      res.errors.length = res.UpdateErrCnt + res.AddErrCnt := by
  refine ⟨_, _, _, _, SyncSecgroups_eq cmp s R env p hlist hcmp hlen, ?_, ?_, ?_, ?_, ?_⟩
  · simp only [finalState, List.range_eq_range']
    exact updatedPairs_length env.updateErr p.commondb p.commonext 0 hlen
  · simp only [finalState, List.range_eq_range']
    exact insertedRows_length env.insertOutcome p.added 0
  · exact updatedPairs_length_add env.updateErr p.commondb p.commonext 0 hlen
  · exact insertedRows_length_add env.insertOutcome p.added 0
  · simp [finalState]

/-- C1 at a run with one matched pair and two added resources, the first insert failing. -/
theorem SyncSecgroups_isolates_failures_witness :
    ∃ s1 locals remotes res,
      SyncSecgroups CompareSets sampleStore [sampleRemote, sampleRemoteB, sampleRemoteC]
        flakySyncEnv = (s1, .done locals remotes res) ∧
      res.UpdateCnt = ((List.range 1).filter fun j => (flakySyncEnv.updateErr j).isNone).length ∧
      res.AddCnt = ((List.range 2).filter fun j => (flakySyncEnv.insertOutcome j).isOk).length ∧
      res.UpdateCnt + res.UpdateErrCnt = 1 ∧
      res.AddCnt + res.AddErrCnt = 2 ∧
      res.errors.length = res.UpdateErrCnt + res.AddErrCnt :=
  SyncSecgroups_isolates_failures CompareSets sampleStore
    [sampleRemote, sampleRemoteB, sampleRemoteC] flakySyncEnv
    { removed := [], commondb := [sampleGroup], commonext := [sampleRemote],
      added := [sampleRemoteB, sampleRemoteC] }
    rfl rfl (by decide)

/-! ## The modelled `CompareSets` meets the contract -/

theorem CompareSets_ok (L : List SSecurityGroup) (R : List ICloudSecurityGroup) (p : Partition)
    (h : CompareSets L R = .ok p) :
    p = { removed := L.filter fun l => ∀ r ∈ R, r.GlobalId ≠ l.ExternalId
          commondb := (R.filterMap fun r =>
            (L.find? fun l => l.ExternalId = r.GlobalId).map fun l => (l, r)).map Prod.fst
          commonext := (R.filterMap fun r =>
            (L.find? fun l => l.ExternalId = r.GlobalId).map fun l => (l, r)).map Prod.snd
          added := R.filter fun r => ∀ l ∈ L, l.ExternalId ≠ r.GlobalId } := by
  unfold CompareSets at h
  split at h
  · exact (Except.ok.inj h).symm
  · cases h

theorem CompareSets_isDiffOf (L : List SSecurityGroup) (R : List ICloudSecurityGroup)
    (p : Partition) (h : CompareSets L R = .ok p) : p.IsDiffOf L R := by
  have hp := CompareSets_ok L R p h
  have hpair : ∀ x ∈ (R.filterMap fun r =>
      (L.find? fun l => l.ExternalId = r.GlobalId).map fun l => (l, r)),
      x.1.ExternalId = x.2.GlobalId ∧ x.1 ∈ L ∧ x.2 ∈ R := by
    intro x hx
    rw [List.mem_filterMap] at hx
    obtain ⟨r, hr, hx⟩ := hx
    cases hf : L.find? (fun l => decide (l.ExternalId = r.GlobalId)) with
    | none => simp [hf] at hx
    | some l =>
      simp [hf] at hx
      subst hx
      have h1 := List.find?_some hf
      exact ⟨by simpa using h1, List.mem_of_find?_eq_some hf, hr⟩
  subst hp
  refine ⟨⟨?_, ?_, ?_⟩, ?_, ?_, ?_⟩
  · simp only [Partition.Aligned, List.map_map]
    exact List.map_congr_left fun x hx => (hpair x hx).1
  · intro l hl
    obtain ⟨x, hx, rfl⟩ := List.mem_map.mp hl
    exact (hpair x hx).2.1
  · intro r hr
    obtain ⟨x, hx, rfl⟩ := List.mem_map.mp hr
    exact (hpair x hx).2.2
  · exact (List.filter_sublist _).subperm
  · intro r hr
    cases hf : L.find? (fun l => decide (l.ExternalId = r.GlobalId)) with
    | none =>
      right
      rw [List.find?_eq_none] at hf
      simp only [List.mem_filter, decide_eq_true_eq]
      exact ⟨hr, fun l hl => by simpa using hf l hl⟩
    | some l =>
      left
      refine List.mem_map.mpr ⟨(l, r), ?_, rfl⟩
      exact List.mem_filterMap.mpr ⟨r, hr, by simp [hf]⟩
  · intro a ha l hl
    simp only [List.mem_filter, decide_eq_true_eq] at ha
    exact ha.2 l hl

theorem CompareSets_succeeds (L : List SSecurityGroup) (R : List ICloudSecurityGroup)
    (h : NoTies L R) : ∃ p, CompareSets L R = .ok p := by
  unfold NoTies at h
  unfold CompareSets
  rw [if_pos h]
  exact ⟨_, rfl⟩

theorem CompareSets_contract : CompareContract CompareSets := by
  intro L R h
  obtain ⟨p, hp⟩ := CompareSets_succeeds L R h
  exact ⟨p, hp, CompareSets_isDiffOf L R p hp⟩

/-! ## The contract does not depend on the order of the slices -/

theorem IsDiffOf_of_perm (p : Partition) (L L1 : List SSecurityGroup)
    (R R1 : List ICloudSecurityGroup) (hL : L1.Perm L) (hR : R1.Perm R)
    (h : p.IsDiffOf L1 R1) : p.IsDiffOf L R := by
  obtain ⟨⟨hal, hdb, hext⟩, hsub, hcover, hnew⟩ := h
  refine ⟨⟨hal, fun l hl => hL.mem_iff.mp (hdb l hl), fun r hr => hR.mem_iff.mp (hext r hr)⟩,
    hsub.trans hR.subperm, fun r hr => hcover r (hR.mem_iff.mpr hr),
    fun a ha l hl => hnew a ha l (hL.mem_iff.mpr hl)⟩

theorem NoTies_of_perm (L L1 : List SSecurityGroup) (R R1 : List ICloudSecurityGroup)
    (hL : L1.Perm L) (hR : R1.Perm R) (h : NoTies L R) : NoTies L1 R1 := by
  refine ⟨((hR.map _).nodup_iff).mpr h.1, ?_⟩
  intro r hr
  rw [(hL.map _).count_eq]
  exact h.2 r (hR.mem_iff.mp hr)

theorem CompareSetsByKey_isDiffOf (L : List SSecurityGroup) (R : List ICloudSecurityGroup)
    (p : Partition) (h : CompareSetsByKey L R = .ok p) : p.IsDiffOf L R :=
  IsDiffOf_of_perm p L _ R _
    (List.perm_insertionSort (fun a b : SSecurityGroup => keyLe a.ExternalId b.ExternalId) L)
    (List.perm_insertionSort (fun a b : ICloudSecurityGroup => keyLe a.GlobalId b.GlobalId) R)
    (CompareSets_isDiffOf _ _ p h)

theorem CompareSetsByKey_contract : CompareContract CompareSetsByKey := by
  intro L R h
  obtain ⟨p, hp⟩ := CompareSets_succeeds _ _
    (NoTies_of_perm L _ R _
      (List.perm_insertionSort (fun a b : SSecurityGroup => keyLe a.ExternalId b.ExternalId) L)
      (List.perm_insertionSort (fun a b : ICloudSecurityGroup => keyLe a.GlobalId b.GlobalId)
        R) h)
  exact ⟨p, hp, CompareSetsByKey_isDiffOf L R p hp⟩

/-! ## Runs that reach the final return -/

theorem SyncSecgroups_done_inv
    (cmp : List SSecurityGroup → List ICloudSecurityGroup → Except Error Partition)
    (s : Store) (R : List ICloudSecurityGroup) (env : SyncEnv) (s1 : Store)
    (locals : List SSecurityGroup) (remotes : List ICloudSecurityGroup) (res : SyncResult)
    (hrun : SyncSecgroups cmp s R env = (s1, .done locals remotes res)) :
    ∃ p, env.listErr = none ∧ cmp s.groups R = .ok p ∧
      p.commondb.length ≤ p.commonext.length ∧
      s1 = (finalState s p env).store ∧ locals = (finalState s p env).localSecgroups ∧
      remotes = (finalState s p env).remoteSecgroups ∧
      res = (finalState s p env).syncResult := by
  cases hl : env.listErr with
  | some e => simp [SyncSecgroups, getSecurityGroups, hl] at hrun
  | none =>
    cases hc : cmp s.groups R with
    | error e => simp [SyncSecgroups, getSecurityGroups, hl, hc] at hrun
    | ok p =>
      by_cases hlen : p.commondb.length ≤ p.commonext.length
      · rw [SyncSecgroups_eq cmp s R env p hl hc hlen] at hrun
        simp only [Prod.mk.injEq, SyncOutcome.done.injEq] at hrun
        exact ⟨p, rfl, rfl, hlen, hrun.1.symm, hrun.2.1.symm, hrun.2.2.1.symm, hrun.2.2.2.symm⟩
      · rw [SyncSecgroups_panic cmp s R env p hl hc (Nat.lt_of_not_le hlen)] at hrun
        simp at hrun

theorem zip_keys_eq {α β γ : Type} (f : α → γ) (g : β → γ) :
    ∀ (ls : List α) (rs : List β), ls.map f = rs.map g → ∀ x ∈ ls.zip rs, f x.1 = g x.2 := by
  intro ls
  induction ls with
  | nil => intro rs _ x hx; simp at hx
  | cons l ls ih =>
    intro rs h x hx
    cases rs with
    | nil => simp at hx
    | cons r rs =>
      simp only [List.map_cons, List.cons.injEq] at h
      simp only [List.zip_cons_cons, List.mem_cons] at hx
      rcases hx with rfl | hx
      · exact h.1
      · exact ih rs h.2 x hx

theorem mem_zip_of_mem_updatedPairs (updateErr : Nat → Option Error) (i : Nat)
    (ls : List SSecurityGroup) (rs : List ICloudSecurityGroup)
    (x : SSecurityGroup × ICloudSecurityGroup) (hx : x ∈ updatedPairs updateErr i ls rs) :
    x ∈ ls.zip rs := by
  simp only [updatedPairs, List.mem_map, List.mem_filter] at hx
  obtain ⟨y, ⟨hy, _⟩, rfl⟩ := hx
  have := List.mem_map_of_mem Prod.snd hy
  simpa [List.enumFrom_map_snd] using this

theorem mem_updatedPairs (updateErr : Nat → Option Error) (ls : List SSecurityGroup) :
    ∀ (rs : List ICloudSecurityGroup) (i j : Nat) (l : SSecurityGroup)
      (r : ICloudSecurityGroup), ls[j]? = some l → rs[j]? = some r →
      updateErr (i + j) = none → (l, r) ∈ updatedPairs updateErr i ls rs := by
  induction ls with
  | nil => intro rs i j l r h; simp at h
  | cons a ls ih =>
    intro rs i j l r hl hr hu
    cases rs with
    | nil => simp at hr
    | cons b rs =>
      cases j with
      | zero =>
        simp only [List.getElem?_cons_zero, Option.some.injEq] at hl hr
        subst hl hr
        simp only [Nat.add_zero] at hu
        simp [updatedPairs, List.enumFrom_cons, List.filter_cons, hu]
      | succ j =>
        simp only [List.getElem?_cons_succ] at hl hr
        have hu1 : updateErr (i + 1 + j) = none := by
          rw [← hu]; congr 1; omega
        have := ih rs (i + 1) j l r hl hr hu1
        simp only [updatedPairs] at this ⊢
        simp only [List.zip_cons_cons, List.enumFrom_cons, List.filter_cons]
        split
        · exact List.mem_map.mpr (by
            obtain ⟨y, hy, hyx⟩ := List.mem_map.mp this
            exact ⟨y, List.mem_cons_of_mem _ hy, hyx⟩)
        · exact this

theorem mem_insertedRows (insertOutcome : Nat → Except Error String) (i : Nat)
    (added : List ICloudSecurityGroup) (x : SSecurityGroup × ICloudSecurityGroup)
    (hx : x ∈ insertedRows insertOutcome i added) :
    x.2 ∈ added ∧ ∃ uuid, x.1 = newRow uuid x.2 := by
  simp only [insertedRows, List.mem_filterMap] at hx
  obtain ⟨y, hy, hyx⟩ := hx
  have hmem : y.2 ∈ added := by
    have := List.mem_map_of_mem Prod.snd hy
    simpa [List.enumFrom_map_snd] using this
  cases ho : insertOutcome y.1 with
  | error e => simp [ho] at hyx
  | ok uuid =>
    simp [ho] at hyx
    subst hyx
    exact ⟨hmem, uuid, rfl⟩

/-! ## Index alignment of the returned lists -/

theorem finalState_forall₂ (s : Store) (p : Partition) (env : SyncEnv) (halign : p.Aligned) :
    List.Forall₂ Corresponds (finalState s p env).localSecgroups
      (finalState s p env).remoteSecgroups := by
  simp only [finalState]
  apply List.rel_append
  · rw [List.forall₂_map_left_iff, List.forall₂_map_right_iff, List.forall₂_same]
    intro x hx
    have hz := mem_zip_of_mem_updatedPairs _ _ _ _ x hx
    exact ⟨rfl, rfl, zip_keys_eq _ _ _ _ halign x hz⟩
  · rw [List.forall₂_map_left_iff, List.forall₂_map_right_iff, List.forall₂_same]
    intro x hx
    obtain ⟨_, uuid, hu⟩ := mem_insertedRows _ _ _ x hx
    rw [hu]
    exact ⟨rfl, rfl, rfl⟩

/-- C2: when a run of `SyncSecgroups` reaches its final return, the two returned lists are
equally long and, at every position, the returned local group has the name and the description
of the returned remote resource and its external id is that resource's global id, given that
the partition pairs a local group with the remote resource of the same identity key at the
same index. -/
theorem SyncSecgroups_index_aligned
    (cmp : List SSecurityGroup → List ICloudSecurityGroup → Except Error Partition)
    (s : Store) (R : List ICloudSecurityGroup) (env : SyncEnv) (s1 : Store)
    (locals : List SSecurityGroup) (remotes : List ICloudSecurityGroup) (res : SyncResult)
    (hrun : SyncSecgroups cmp s R env = (s1, .done locals remotes res))
    (halign : ∀ p, cmp s.groups R = .ok p → p.Aligned) :
    locals.length = remotes.length ∧
      ∀ (i : Nat) (h1 : i < locals.length) (h2 : i < remotes.length),
        (locals.get ⟨i, h1⟩).Name = (remotes.get ⟨i, h2⟩).Name ∧
        (locals.get ⟨i, h1⟩).Description = (remotes.get ⟨i, h2⟩).Description ∧
        (locals.get ⟨i, h1⟩).ExternalId = (remotes.get ⟨i, h2⟩).GlobalId := by
  obtain ⟨p, _, hc, _, _, hl, hr, _⟩ := SyncSecgroups_done_inv cmp s R env s1 locals remotes res hrun
  have h := finalState_forall₂ s p env (halign p hc)
  rw [← hl, ← hr, List.forall₂_iff_get] at h
  exact ⟨h.1, fun i h1 h2 => h.2 i h1 h2⟩

/-- C2 at a run with one matched pair and one added resource, read at the second position. -/
theorem SyncSecgroups_index_aligned_witness :
    SyncSecgroups CompareSets sampleStore [sampleRemote, sampleRemoteB] okSyncEnv =
        ({ groups := [syncFields sampleRemote sampleGroup, newRow "n" sampleRemoteB],
           rules := [sampleRule] },
          .done [syncFields sampleRemote sampleGroup, newRow "n" sampleRemoteB]
            [sampleRemote, sampleRemoteB] { AddCnt := 1, UpdateCnt := 1 }) ∧
      [syncFields sampleRemote sampleGroup, newRow "n" sampleRemoteB].length =
        [sampleRemote, sampleRemoteB].length ∧
      (newRow "n" sampleRemoteB).Name = sampleRemoteB.Name ∧
      (newRow "n" sampleRemoteB).Description = sampleRemoteB.Description ∧
      (newRow "n" sampleRemoteB).ExternalId = sampleRemoteB.GlobalId :=
  have hrun : SyncSecgroups CompareSets sampleStore [sampleRemote, sampleRemoteB] okSyncEnv =
      ({ groups := [syncFields sampleRemote sampleGroup, newRow "n" sampleRemoteB],
         rules := [sampleRule] },
        .done [syncFields sampleRemote sampleGroup, newRow "n" sampleRemoteB]
          [sampleRemote, sampleRemoteB] { AddCnt := 1, UpdateCnt := 1 }) := by decide
  have h := SyncSecgroups_index_aligned CompareSets sampleStore [sampleRemote, sampleRemoteB]
    okSyncEnv _ _ _ _ hrun (fun p hp => (CompareSets_isDiffOf _ _ p hp).1.1)
  ⟨hrun, h.1, h.2 1 (by decide) (by decide)⟩

/-! ## The group table under a series of updates -/

theorem applyUpdates_cons (x : SSecurityGroup × ICloudSecurityGroup)
    (pairs : List (SSecurityGroup × ICloudSecurityGroup)) (gs : List SSecurityGroup) :
    applyUpdates (x :: pairs) gs =
      applyUpdates pairs (gs.map fun g => if g.Id = x.1.Id then syncFields x.2 g else g) := rfl

theorem applyUpdates_length (pairs : List (SSecurityGroup × ICloudSecurityGroup)) :
    ∀ gs : List SSecurityGroup, (applyUpdates pairs gs).length = gs.length := by
  induction pairs with
  | nil => intro gs; rfl
  | cons x pairs ih => intro gs; rw [applyUpdates_cons, ih, List.length_map]

theorem applyUpdates_keptFields (pairs : List (SSecurityGroup × ICloudSecurityGroup)) :
    ∀ gs : List SSecurityGroup,
      (applyUpdates pairs gs).map SSecurityGroup.keptFields =
        gs.map SSecurityGroup.keptFields := by
  induction pairs with
  | nil => intro gs; rfl
  | cons x pairs ih =>
    intro gs
    rw [applyUpdates_cons, ih, List.map_map]
    apply List.map_congr_left
    intro g _
    simp only [Function.comp_apply]
    split <;> rfl

theorem applyUpdates_getElem? (pairs : List (SSecurityGroup × ICloudSecurityGroup)) :
    ∀ (gs : List SSecurityGroup) (i : Nat) (g : SSecurityGroup), gs[i]? = some g →
      (∀ x ∈ pairs, x.1.Id ≠ g.Id) → (applyUpdates pairs gs)[i]? = some g := by
  induction pairs with
  | nil => intro gs i g h _; exact h
  | cons x pairs ih =>
    intro gs i g h hne
    rw [applyUpdates_cons]
    apply ih _ i g _ (fun y hy => hne y (List.mem_cons_of_mem _ hy))
    have hx : ¬ g.Id = x.1.Id := fun e => hne x (List.mem_cons_self _ _) e.symm
    simp [List.getElem?_map, h, hx]

theorem mem_of_mem_applyUpdates (pairs : List (SSecurityGroup × ICloudSecurityGroup)) :
    ∀ (gs : List SSecurityGroup) (g : SSecurityGroup), g ∈ applyUpdates pairs gs →
      (∀ x ∈ pairs, x.1.Id ≠ g.Id) → g ∈ gs := by
  induction pairs with
  | nil => intro gs g h _; exact h
  | cons x pairs ih =>
    intro gs g h hne
    rw [applyUpdates_cons] at h
    have h1 := ih _ g h (fun y hy => hne y (List.mem_cons_of_mem _ hy))
    obtain ⟨g0, hg0, hg⟩ := List.mem_map.mp h1
    have hx : ¬ g.Id = x.1.Id := fun e => hne x (List.mem_cons_self _ _) e.symm
    by_cases h0 : g0.Id = x.1.Id
    · rw [if_pos h0] at hg
      exact absurd (by rw [← hg]; exact h0) hx
    · rw [if_neg h0] at hg
      exact hg ▸ hg0

theorem applyUpdates_overwritten (pairs : List (SSecurityGroup × ICloudSecurityGroup)) :
    ∀ gs : List SSecurityGroup, (pairs.map fun x => x.1.Id).Nodup →
      ∀ x ∈ pairs, ∀ g ∈ applyUpdates pairs gs, g.Id = x.1.Id →
        g.Name = x.2.Name ∧ g.Description = x.2.Description := by
  induction pairs with
  | nil => intro gs _ x hx; simp at hx
  | cons y pairs ih =>
    intro gs hnd x hx g hg hid
    rw [List.map_cons, List.nodup_cons] at hnd
    rw [applyUpdates_cons] at hg
    rcases List.mem_cons.mp hx with rfl | hx
    · have hne : ∀ z ∈ pairs, z.1.Id ≠ g.Id := by
        intro z hz e
        exact hnd.1 (List.mem_map.mpr ⟨z, hz, by rw [e, hid]⟩)
      have h1 := mem_of_mem_applyUpdates pairs _ g hg hne
      obtain ⟨g0, _, hg0⟩ := List.mem_map.mp h1
      by_cases h0 : g0.Id = x.1.Id
      · rw [if_pos h0] at hg0
        subst hg0
        exact ⟨rfl, rfl⟩
      · rw [if_neg h0] at hg0
        subst hg0
        exact absurd hid h0
    · exact ih _ hnd.2 x hx g hg hid

theorem updatedPairs_fst_sublist (updateErr : Nat → Option Error) (ls : List SSecurityGroup) :
    ∀ (rs : List ICloudSecurityGroup) (i : Nat),
      ((updatedPairs updateErr i ls rs).map Prod.fst).Sublist ls := by
  induction ls with
  | nil => intro rs i; simp [updatedPairs]
  | cons l ls ih =>
    intro rs i
    cases rs with
    | nil => simp [updatedPairs]
    | cons r rs =>
      have := ih rs (i + 1)
      simp only [updatedPairs] at this ⊢
      simp only [List.zip_cons_cons, List.enumFrom_cons, List.filter_cons]
      split
      · simpa using this
      · exact this.trans (List.sublist_cons_self _ _)

/-- The store after any run: some matched pairs were written, some rows were appended. -/
theorem SyncSecgroups_store
    (cmp : List SSecurityGroup → List ICloudSecurityGroup → Except Error Partition)
    (s : Store) (R : List ICloudSecurityGroup) (env : SyncEnv) :
    ∃ pairs new, (SyncSecgroups cmp s R env).1 =
        { groups := applyUpdates pairs s.groups ++ new, rules := s.rules } ∧
      ∀ x ∈ pairs, ∃ p, cmp s.groups R = .ok p ∧ x ∈ p.commondb.zip p.commonext := by
  cases hl : env.listErr with
  | some e =>
    exact ⟨[], [], by simp [SyncSecgroups, getSecurityGroups, hl, applyUpdates], by simp⟩
  | none =>
    cases hc : cmp s.groups R with
    | error e =>
      exact ⟨[], [], by simp [SyncSecgroups, getSecurityGroups, hl, hc, applyUpdates], by simp⟩
    | ok p =>
      by_cases hlen : p.commondb.length ≤ p.commonext.length
      · refine ⟨updatedPairs env.updateErr 0 p.commondb p.commonext,
          (insertedRows env.insertOutcome 0 p.added).map Prod.fst, ?_, ?_⟩
        · rw [SyncSecgroups_eq cmp s R env p hl hc hlen]
          rfl
        · intro x hx
          exact ⟨p, rfl, mem_zip_of_mem_updatedPairs _ _ _ _ x hx⟩
      · refine ⟨updatedPairs env.updateErr 0 p.commondb p.commonext, [], ?_, ?_⟩
        · rw [SyncSecgroups_panic cmp s R env p hl hc (Nat.lt_of_not_le hlen)]
          simp
        · intro x hx
          exact ⟨p, rfl, mem_zip_of_mem_updatedPairs _ _ _ _ x hx⟩

/-! ## No local group is deleted -/

/-- C9: whatever the partition function, the store, the remote list and the failures, and
however the run ends, `SyncSecgroups` leaves the rule table alone, keeps every row of the
group table at its place with its local id, external id, owning project and dirty flag, and
only appends rows; a row whose id is the id of no matched local group is still there, at its
place, with all its fields unchanged; and when the ids of the rows are distinct and the
matched pairs are rows paired with remote resources of the same identity key, every row whose
external id no remote resource shares is still there, at its place, with all its fields
unchanged. -/
theorem SyncSecgroups_never_deletes
    (cmp : List SSecurityGroup → List ICloudSecurityGroup → Except Error Partition)
    (s : Store) (R : List ICloudSecurityGroup) (env : SyncEnv) :
    (SyncSecgroups cmp s R env).1.rules = s.rules ∧
      s.groups.length ≤ (SyncSecgroups cmp s R env).1.groups.length ∧
      ((SyncSecgroups cmp s R env).1.groups.take s.groups.length).map
          SSecurityGroup.keptFields = s.groups.map SSecurityGroup.keptFields ∧
      (∀ (i : Nat) (g : SSecurityGroup), s.groups[i]? = some g →
          (∀ p, cmp s.groups R = .ok p → ∀ l ∈ p.commondb, l.Id ≠ g.Id) →
          (SyncSecgroups cmp s R env).1.groups[i]? = some g) ∧
      ((s.groups.map (·.Id)).Nodup →
        (∀ p, cmp s.groups R = .ok p → p.PairsOf s.groups R) →
        ∀ (i : Nat) (g : SSecurityGroup), s.groups[i]? = some g →
          (∀ r ∈ R, r.GlobalId ≠ g.ExternalId) →
          (SyncSecgroups cmp s R env).1.groups[i]? = some g) := by
  obtain ⟨pairs, new, hs, hp⟩ := SyncSecgroups_store cmp s R env
  rw [hs]
  have hkeep : ∀ (i : Nat) (g : SSecurityGroup), s.groups[i]? = some g →
      (∀ x ∈ pairs, x.1.Id ≠ g.Id) → (applyUpdates pairs s.groups ++ new)[i]? = some g := by
    intro i g hi hne
    have hlt : i < s.groups.length := by
      by_contra hge
      rw [List.getElem?_eq_none (Nat.le_of_not_lt hge)] at hi
      cases hi
    rw [List.getElem?_append_left (by rw [applyUpdates_length]; exact hlt)]
    exact applyUpdates_getElem? pairs s.groups i g hi hne
  refine ⟨rfl, ?_, ?_, ?_, ?_⟩
  · simp [applyUpdates_length]
  · simp only
    rw [List.take_left' (applyUpdates_length pairs s.groups), applyUpdates_keptFields]
  · intro i g hi hno
    apply hkeep i g hi
    intro x hx
    obtain ⟨p, hc, hz⟩ := hp x hx
    have hxm := List.of_mem_zip (show (x.1, x.2) ∈ p.commondb.zip p.commonext from hz)
    exact hno p hc x.1 hxm.1
  · intro hnd hpairs i g hi hno
    have hmem : g ∈ s.groups := List.getElem?_mem hi
    apply hkeep i g hi
    intro x hx e
    obtain ⟨p, hc, hz⟩ := hp x hx
    obtain ⟨hal, hdb, hext⟩ := hpairs p hc
    have hxm := List.of_mem_zip (show (x.1, x.2) ∈ p.commondb.zip p.commonext from hz)
    have hxg : x.1 = g := List.inj_on_of_nodup_map hnd (hdb _ hxm.1) hmem e
    have hkey := zip_keys_eq _ _ _ _ hal x hz
    exact hno x.2 (hext _ hxm.2) (by rw [← hkey, hxg])

/-- C9 at a store with one synced group and one purely local group, a remote list that is not
in key order and a partition whose slices are: the local group stays as it is. -/
theorem SyncSecgroups_never_deletes_witness :
    (SyncSecgroups CompareSetsByKey mixedStore [sampleRemoteC, sampleRemote, sampleRemoteB]
      okSyncEnv).1.groups[1]? = some localOnlyGroup :=
  (SyncSecgroups_never_deletes CompareSetsByKey mixedStore
    [sampleRemoteC, sampleRemote, sampleRemoteB] okSyncEnv).2.2.2.2 (by decide)
    (fun p hp => (CompareSetsByKey_isDiffOf _ _ p hp).1) 1 localOnlyGroup rfl (by decide)

/-! ## What a successful update writes -/

/-- C8: an update that succeeds writes the remote name and description into the receiver and
into the row with the receiver's id and changes nothing else; in a run that reaches its final
return every row keeps its local id, external id, owning project and dirty flag, every
matched pair whose update succeeds is returned with the local group carrying the remote name
and description and all its other fields as before, and (the matched locals having distinct
ids) the row of that id ends with the remote name and description; and the example of the
spec yields the matched pair, the name `web-updated` and the tally updated 1, added 0, no
errors. -/
theorem SyncSecgroups_overwrites_name_description :
    (∀ (s : Store) (self : SSecurityGroup) (extSec : ICloudSecurityGroup),
      SyncWithCloudSecurityGroup s self extSec none =
        ({ groups := s.groups.map fun g =>
             if g.Id = self.Id then
               { g with Name := extSec.Name, Description := extSec.Description }
             else g
           rules := s.rules },
         { self with Name := extSec.Name, Description := extSec.Description }, none)) ∧
    (∀ (cmp : List SSecurityGroup → List ICloudSecurityGroup → Except Error Partition)
        (s : Store) (R : List ICloudSecurityGroup) (env : SyncEnv) (p : Partition) (s1 : Store)
        (locals : List SSecurityGroup) (remotes : List ICloudSecurityGroup) (res : SyncResult),
      cmp s.groups R = .ok p →
      SyncSecgroups cmp s R env = (s1, .done locals remotes res) →
      (s1.groups.take s.groups.length).map SSecurityGroup.keptFields =
          s.groups.map SSecurityGroup.keptFields ∧
        ∀ (i : Nat) (h1 : i < p.commondb.length) (h2 : i < p.commonext.length),
          env.updateErr i = none →
          ({ p.commondb.get ⟨i, h1⟩ with
              Name := (p.commonext.get ⟨i, h2⟩).Name
              Description := (p.commonext.get ⟨i, h2⟩).Description },
            p.commonext.get ⟨i, h2⟩) ∈ locals.zip remotes ∧
          ((p.commondb.map (·.Id)).Nodup →
            ∀ (j : Nat) (g : SSecurityGroup), j < s.groups.length → s1.groups[j]? = some g →
              g.Id = (p.commondb.get ⟨i, h1⟩).Id →
              g.Name = (p.commonext.get ⟨i, h2⟩).Name ∧
                g.Description = (p.commonext.get ⟨i, h2⟩).Description)) ∧
    SyncSecgroups CompareSets { groups := [sampleGroup], rules := [] } [sampleRemote]
        okSyncEnv =
      ({ groups := [{ sampleGroup with Name := "web-updated" }], rules := [] },
        .done [{ sampleGroup with Name := "web-updated" }] [sampleRemote]
          { UpdateCnt := 1, AddCnt := 0, UpdateErrCnt := 0, AddErrCnt := 0, errors := [] }) := by
  refine ⟨fun s self extSec => rfl, ?_, by decide⟩
  intro cmp s R env p s1 locals remotes res hc hrun
  obtain ⟨q, _, hq, _, hs1, hl, hr, _⟩ :=
    SyncSecgroups_done_inv cmp s R env s1 locals remotes res hrun
  rw [hc] at hq
  cases hq
  subst hs1 hl hr
  refine ⟨?_, ?_⟩
  · simp only [finalState]
    rw [List.take_left' (applyUpdates_length _ s.groups), applyUpdates_keptFields]
  · intro i h1 h2 hu
    have hmem : (p.commondb.get ⟨i, h1⟩, p.commonext.get ⟨i, h2⟩) ∈
        updatedPairs env.updateErr 0 p.commondb p.commonext :=
      mem_updatedPairs env.updateErr p.commondb p.commonext 0 i _ _
        (by simp [List.getElem?_eq_getElem h1]) (by simp [List.getElem?_eq_getElem h2])
        (by simpa using hu)
    refine ⟨?_, ?_⟩
    · simp only [finalState]
      rw [List.zip_append (by simp), List.zip_map']
      exact List.mem_append_left _ (List.mem_map.mpr ⟨_, hmem, rfl⟩)
    · intro hnd j g hj hg hid
      simp only [finalState] at hg
      rw [List.getElem?_append_left (by rw [applyUpdates_length]; exact hj)] at hg
      have hsub := (updatedPairs_fst_sublist env.updateErr p.commondb p.commonext 0).map
        (fun l : SSecurityGroup => l.Id)
      have hnd1 : ((updatedPairs env.updateErr 0 p.commondb p.commonext).map
          fun x => x.1.Id).Nodup := by
        have := hnd.sublist hsub
        simpa [List.map_map, Function.comp_def] using this
      exact applyUpdates_overwritten _ s.groups hnd1 _ hmem g (List.getElem?_mem hg) hid

/-- C8 at the pair of the example: the returned pair and the row of the updated group. -/
theorem SyncSecgroups_overwrites_name_description_witness :
    (({ sampleGroup with Name := sampleRemote.Name, Description := sampleRemote.Description },
        sampleRemote) ∈
        [({ sampleGroup with Name := "web-updated" } : SSecurityGroup)].zip [sampleRemote]) ∧
      ({ sampleGroup with Name := "web-updated" } : SSecurityGroup).Name = sampleRemote.Name ∧
      ({ sampleGroup with Name := "web-updated" } : SSecurityGroup).Description =
        sampleRemote.Description :=
  have h := (SyncSecgroups_overwrites_name_description.2.1 CompareSets
    { groups := [sampleGroup], rules := [] } [sampleRemote] okSyncEnv
    { removed := [], commondb := [sampleGroup], commonext := [sampleRemote], added := [] }
    { groups := [{ sampleGroup with Name := "web-updated" }], rules := [] }
    [{ sampleGroup with Name := "web-updated" }] [sampleRemote] { UpdateCnt := 1 }
    rfl (by decide)).2 0 (by decide) (by decide) rfl
  ⟨h.1, h.2 (by decide) 0 { sampleGroup with Name := "web-updated" } (by decide) rfl rfl⟩

/-! ## A second run on the store that the first run leaves -/

theorem applyUpdates_externalIds (pairs : List (SSecurityGroup × ICloudSecurityGroup))
    (gs : List SSecurityGroup) :
    (applyUpdates pairs gs).map (·.ExternalId) = gs.map (·.ExternalId) := by
  have h := congrArg (List.map fun t : String × String × String × Bool => t.2.1)
    (applyUpdates_keptFields pairs gs)
  simpa [List.map_map, Function.comp_def, SSecurityGroup.keptFields] using h

theorem insertedRows_keys (insertOutcome : Nat → Except Error String) (i : Nat)
    (added : List ICloudSecurityGroup) :
    ((insertedRows insertOutcome i added).map Prod.fst).map (·.ExternalId) =
      ((insertedRows insertOutcome i added).map Prod.snd).map (·.GlobalId) := by
  rw [List.map_map, List.map_map]
  apply List.map_congr_left
  intro x hx
  obtain ⟨_, uuid, hu⟩ := mem_insertedRows _ _ _ x hx
  simp [hu, newRow]

theorem insertedRows_snd_of_no_failure (insertOutcome : Nat → Except Error String)
    (added : List ICloudSecurityGroup) :
    ∀ i : Nat, (insertFailures insertOutcome i added).length = 0 →
      (insertedRows insertOutcome i added).map Prod.snd = added := by
  induction added with
  | nil => intro i _; simp [insertedRows]
  | cons r rs ih =>
    intro i h
    have := ih (i + 1)
    simp only [insertedRows, insertFailures] at this h ⊢
    cases hu : insertOutcome i with
    | error e => simp [List.enumFrom_cons, List.filterMap_cons, hu] at h
    | ok uuid =>
      simp only [List.enumFrom_cons, List.filterMap_cons, hu] at h ⊢
      simp only [List.map_cons, List.cons.injEq, true_and]
      exact this h

theorem finalState_externalIds (s : Store) (p : Partition) (env : SyncEnv)
    (hadd : (finalState s p env).syncResult.AddErrCnt = 0) :
    (finalState s p env).store.groups.map (·.ExternalId) =
      s.groups.map (·.ExternalId) ++ p.added.map (·.GlobalId) := by
  simp only [finalState] at hadd ⊢
  rw [List.map_append, applyUpdates_externalIds, insertedRows_keys,
    insertedRows_snd_of_no_failure _ _ 0 hadd]

theorem noTies_finalState (s : Store) (R : List ICloudSecurityGroup) (p : Partition)
    (env : SyncEnv) (hties : NoTies s.groups R) (hdiff : p.IsDiffOf s.groups R)
    (hadd : (finalState s p env).syncResult.AddErrCnt = 0) :
    NoTies (finalState s p env).store.groups R := by
  obtain ⟨-, hsub, -, hnew⟩ := hdiff
  refine ⟨hties.1, ?_⟩
  intro r hr
  rw [finalState_externalIds s p env hadd, List.count_append]
  have hkeys : (p.added.map (·.GlobalId)).Subperm (R.map (·.GlobalId)) := by
    obtain ⟨l, hl, hs⟩ := hsub
    exact ⟨l.map (·.GlobalId), hl.map _, hs.map _⟩
  have h1 : List.count r.GlobalId (p.added.map (·.GlobalId)) ≤ 1 :=
    Nat.le_trans (hkeys.count_le r.GlobalId)
      (List.nodup_iff_count_le_one.mp hties.1 r.GlobalId)
  by_cases hmem : r.GlobalId ∈ p.added.map (·.GlobalId)
  · obtain ⟨a, ha, hak⟩ := List.mem_map.mp hmem
    have h0 : List.count r.GlobalId (s.groups.map (·.ExternalId)) = 0 := by
      rw [List.count_eq_zero]
      intro hin
      obtain ⟨l, hl, hlk⟩ := List.mem_map.mp hin
      exact hnew a ha l hl (by rw [hlk, hak])
    omega
  · have h0 := List.count_eq_zero.mpr hmem
    have := hties.2 r hr
    omega

theorem added_nil_of_covered (L : List SSecurityGroup) (R : List ICloudSecurityGroup)
    (p : Partition) (hdiff : p.IsDiffOf L R)
    (hcov : ∀ r ∈ R, r.GlobalId ∈ L.map (·.ExternalId)) : p.added = [] := by
  obtain ⟨-, hsub, -, hnew⟩ := hdiff
  rw [List.eq_nil_iff_forall_not_mem]
  intro a ha
  obtain ⟨l, hl, hlk⟩ := List.mem_map.mp (hcov a (hsub.subset ha))
  exact hnew a ha l hl hlk

theorem finalState_covers (s : Store) (R : List ICloudSecurityGroup) (p : Partition)
    (env : SyncEnv) (hdiff : p.IsDiffOf s.groups R)
    (hadd : (finalState s p env).syncResult.AddErrCnt = 0) :
    ∀ r ∈ R, r.GlobalId ∈ (finalState s p env).store.groups.map (·.ExternalId) := by
  obtain ⟨⟨hal, hdb, -⟩, -, hcover, -⟩ := hdiff
  intro r hr
  rw [finalState_externalIds s p env hadd, List.mem_append]
  rcases hcover r hr with h | h
  · left
    have hk : r.GlobalId ∈ p.commondb.map (·.ExternalId) := by
      rw [hal]
      exact List.mem_map_of_mem _ h
    obtain ⟨l, hl, hlk⟩ := List.mem_map.mp hk
    exact List.mem_map.mpr ⟨l, hdb l hl, hlk⟩
  · right
    exact List.mem_map_of_mem _ h

/-- C3, counterexample: on the empty store with one remote resource, a first run whose
insert fails reaches its final return and leaves the store empty; the second run, on that
store and the same remote list, adds one group (add count 1, one new row). -/
theorem SyncSecgroups_second_run_adds :
    SyncSecgroups CompareSets emptyStore [sampleRemoteB] failingInsertEnv =
        (emptyStore, .done [] [] { AddErrCnt := 1, errors := [.Other "insert failed"] }) ∧
      SyncSecgroups CompareSets emptyStore [sampleRemoteB] okSyncEnv =
        ({ groups := [newRow "n" sampleRemoteB], rules := [] },
          .done [newRow "n" sampleRemoteB] [sampleRemoteB] { AddCnt := 1 }) := by
  decide

/-- C3, amended: let the partition function not fail on rows and a remote list without ties
on an identity key and return a three-way diff by identity key there (slices in whatever
order), let the store and the remote list have no ties, and let a first run reach its final
return with no add error.  Then a second run on the store it leaves, with the same remote list
and a listing that succeeds, is not aborted (no identity conflict), has an empty added
partition, add count 0, add-error count 0 and no new group row, its update count plus
update-error count is the number of matched pairs, and its update count is the number of
matched pairs when no update fails. -/
theorem SyncSecgroups_idempotent
    (cmp : List SSecurityGroup → List ICloudSecurityGroup → Except Error Partition)
    (hcmp : CompareContract cmp)
    (s : Store) (R : List ICloudSecurityGroup) (env1 env2 : SyncEnv) (s1 : Store)
    (l1 : List SSecurityGroup) (r1 : List ICloudSecurityGroup) (res1 : SyncResult)
    (hties : NoTies s.groups R)
    (hrun1 : SyncSecgroups cmp s R env1 = (s1, .done l1 r1 res1))
    (hadd : res1.AddErrCnt = 0) (hlist2 : env2.listErr = none) :
    ∃ p2 s2 l2 r2 res2,
      cmp s1.groups R = .ok p2 ∧
      SyncSecgroups cmp s1 R env2 = (s2, .done l2 r2 res2) ∧
      p2.added = [] ∧ res2.AddCnt = 0 ∧ res2.AddErrCnt = 0 ∧
      s2.groups.length = s1.groups.length ∧
      res2.UpdateCnt + res2.UpdateErrCnt = p2.commondb.length ∧
      ((∀ i, i < p2.commondb.length → env2.updateErr i = none) →
        res2.UpdateCnt = p2.commondb.length) := by
  obtain ⟨p1, _, hc1, _, hs1, _, _, hres1⟩ :=
    SyncSecgroups_done_inv cmp s R env1 s1 l1 r1 res1 hrun1
  obtain ⟨q1, hq1, hdiff1⟩ := hcmp _ _ hties
  rw [hc1] at hq1
  cases hq1
  have hadd1 : (finalState s p1 env1).syncResult.AddErrCnt = 0 := by rw [← hres1]; exact hadd
  have hties1 : NoTies s1.groups R := by
    rw [hs1]; exact noTies_finalState s R p1 env1 hties hdiff1 hadd1
  obtain ⟨p2, hc2, hdiff2⟩ := hcmp _ _ hties1
  have hnil : p2.added = [] := by
    apply added_nil_of_covered s1.groups R p2 hdiff2
    rw [hs1]
    exact finalState_covers s R p1 env1 hdiff1 hadd1
  have hlen : p2.commondb.length = p2.commonext.length := by
    have := congrArg List.length hdiff2.1.1
    simpa using this
  refine ⟨p2, _, _, _, _, hc2, SyncSecgroups_eq cmp s1 R env2 p2 hlist2 hc2 hlen.le, hnil,
    ?_, ?_, ?_, ?_, ?_⟩
  · simp [finalState, hnil, insertedRows]
  · simp [finalState, hnil, insertFailures]
  · simp [finalState, hnil, insertedRows, applyUpdates_length]
  · exact updatedPairs_length_add env2.updateErr p2.commondb p2.commonext 0 hlen.le
  · intro hok
    simp only [finalState]
    rw [updatedPairs_length env2.updateErr p2.commondb p2.commonext 0 hlen.le,
      List.filter_eq_self.mpr, List.length_range']
    intro j hj
    rw [List.mem_range'_1] at hj
    simp [hok j (by omega)]

/-- C3, amended, at a store with one synced group, a remote list of three resources that is
not in key order and a partition whose slices are in key order: the first run updates one
group and adds two, the second finds three matched pairs and nothing to add. -/
theorem SyncSecgroups_idempotent_witness :
    SyncSecgroups CompareSetsByKey sampleStore [sampleRemoteC, sampleRemote, sampleRemoteB]
        okSyncEnv =
      ({ groups := [syncFields sampleRemote sampleGroup, newRow "n" sampleRemoteB,
                    newRow "nn" sampleRemoteC],
         rules := [sampleRule] },
        .done [syncFields sampleRemote sampleGroup, newRow "n" sampleRemoteB,
            newRow "nn" sampleRemoteC]
          [sampleRemote, sampleRemoteB, sampleRemoteC] { AddCnt := 2, UpdateCnt := 1 }) ∧
    ∃ p2 s2 l2 r2 res2,
      CompareSetsByKey [syncFields sampleRemote sampleGroup, newRow "n" sampleRemoteB,
          newRow "nn" sampleRemoteC]
        [sampleRemoteC, sampleRemote, sampleRemoteB] = .ok p2 ∧
      SyncSecgroups CompareSetsByKey
        { groups := [syncFields sampleRemote sampleGroup, newRow "n" sampleRemoteB,
                     newRow "nn" sampleRemoteC],
          rules := [sampleRule] }
        [sampleRemoteC, sampleRemote, sampleRemoteB] okSyncEnv = (s2, .done l2 r2 res2) ∧
      p2.added = [] ∧ res2.AddCnt = 0 ∧ res2.AddErrCnt = 0 ∧
      s2.groups.length = 3 ∧
      res2.UpdateCnt + res2.UpdateErrCnt = p2.commondb.length ∧
      ((∀ i, i < p2.commondb.length → okSyncEnv.updateErr i = none) →
        res2.UpdateCnt = p2.commondb.length) :=
  have hrun1 : SyncSecgroups CompareSetsByKey sampleStore
      [sampleRemoteC, sampleRemote, sampleRemoteB] okSyncEnv =
      ({ groups := [syncFields sampleRemote sampleGroup, newRow "n" sampleRemoteB,
                    newRow "nn" sampleRemoteC],
         rules := [sampleRule] },
        .done [syncFields sampleRemote sampleGroup, newRow "n" sampleRemoteB,
            newRow "nn" sampleRemoteC]
          [sampleRemote, sampleRemoteB, sampleRemoteC] { AddCnt := 2, UpdateCnt := 1 }) := by
    decide
  ⟨hrun1, SyncSecgroups_idempotent CompareSetsByKey CompareSetsByKey_contract sampleStore
    [sampleRemoteC, sampleRemote, sampleRemoteB] okSyncEnv okSyncEnv _ _ _ _
    ⟨by decide, by decide⟩ hrun1 rfl rfl⟩

/-! ## Clone in closed form -/

theorem length_eq_zero_iff (n : String) : n.length = 0 ↔ n = "" := by
  constructor
  · intro h
    cases n with
    | mk l =>
      have hl : l = [] := List.length_eq_zero.mp h
      rw [hl]
  · intro h
    rw [h]
    rfl

theorem cloneRules_eq (insertRuleOutcome : Nat → Except Error String) (secgroupId : String)
    (rules : List SSecurityGroupRule) :
    ∀ (i : Nat) (s : Store),
      cloneRules insertRuleOutcome secgroupId i rules s =
        ({ groups := s.groups
           rules := s.rules ++ insertedCopies insertRuleOutcome secgroupId i rules },
          firstRuleError insertRuleOutcome i rules) := by
  induction rules with
  | nil => intro i s; simp [cloneRules, insertedCopies, firstRuleError]
  | cons rule rest ih =>
    intro i s
    cases h : insertRuleOutcome i with
    | error e => simp [cloneRules, Store.insertRule, insertedCopies, firstRuleError, h]
    | ok uuid =>
      simp [cloneRules, Store.insertRule, insertedCopies, firstRuleError, h, ih, copyRule]

theorem PerformClone_eq (s : Store) (self : SSecurityGroup) (userCred : TokenCredential)
    (data : JSONObject) (env : CloneEnv) (uuid : String)
    (hname : data.GetString "name" ≠ "") (hfree : countByName s (data.GetString "name") = 0)
    (hins : env.insertGroupOutcome = .ok uuid) :
    PerformClone s self userCred data env =
      ({ groups := s.groups ++ [clonedGroup uuid userCred data]
         rules := s.rules ++ insertedCopies env.insertRuleOutcome uuid 0
           (getSecurityRules s self env.fetchRulesErr) },
        none,
        firstRuleError env.insertRuleOutcome 0 (getSecurityRules s self env.fetchRulesErr)) := by
  have hlen : ¬ (data.GetString "name").length = 0 := fun h =>
    hname ((length_eq_zero_iff _).mp h)
  have hrules : ∀ gs, getSecurityRules { groups := gs, rules := s.rules } self
      env.fetchRulesErr = getSecurityRules s self env.fetchRulesErr := fun gs => rfl
  simp only [PerformClone, if_neg hlen, hfree, ne_eq, not_true_eq_false, if_false,
    Store.insertGroup, hins, if_true, hrules, cloneRules_eq, clonedGroup]
  cases firstRuleError env.insertRuleOutcome 0 (getSecurityRules s self env.fetchRulesErr) <;>
    rfl

theorem insertedCopies_owner (insertRuleOutcome : Nat → Except Error String)
    (secgroupId : String) (rules : List SSecurityGroupRule) :
    ∀ i : Nat, ∀ r ∈ insertedCopies insertRuleOutcome secgroupId i rules,
      r.SecgroupID = secgroupId := by
  induction rules with
  | nil => intro i r hr; simp [insertedCopies] at hr
  | cons rule rest ih =>
    intro i r hr
    simp only [insertedCopies] at hr
    cases h : insertRuleOutcome i with
    | error e => simp [h] at hr
    | ok uuid =>
      simp only [h, List.mem_cons] at hr
      rcases hr with rfl | hr
      · rfl
      · exact ih (i + 1) r hr

theorem insertedCopies_fields (insertRuleOutcome : Nat → Except Error String)
    (secgroupId : String) (rules : List SSecurityGroupRule) :
    ∀ i : Nat, (insertedCopies insertRuleOutcome secgroupId i rules).map
        SSecurityGroupRule.copiedFields =
      (rules.take (insertedCopies insertRuleOutcome secgroupId i rules).length).map
        SSecurityGroupRule.copiedFields := by
  induction rules with
  | nil => intro i; simp [insertedCopies]
  | cons rule rest ih =>
    intro i
    simp only [insertedCopies]
    cases h : insertRuleOutcome i with
    | error e => simp
    | ok uuid =>
      simp only [List.map_cons, List.length_cons, List.take_succ_cons, List.cons.injEq]
      exact ⟨rfl, ih (i + 1)⟩

theorem insertedCopies_length_of_ok (insertRuleOutcome : Nat → Except Error String)
    (secgroupId : String) (rules : List SSecurityGroupRule) :
    ∀ i : Nat, firstRuleError insertRuleOutcome i rules = none →
      (insertedCopies insertRuleOutcome secgroupId i rules).length = rules.length := by
  induction rules with
  | nil => intro i _; simp [insertedCopies]
  | cons rule rest ih =>
    intro i hn
    simp only [insertedCopies, firstRuleError] at hn ⊢
    cases h : insertRuleOutcome i with
    | error e => simp [h] at hn
    | ok uuid =>
      simp only [h] at hn
      simp [ih (i + 1) hn]

theorem firstRuleError_some (insertRuleOutcome : Nat → Except Error String)
    (secgroupId : String) (rules : List SSecurityGroupRule) :
    ∀ (i : Nat) (e : Error), firstRuleError insertRuleOutcome i rules = some e →
      (insertedCopies insertRuleOutcome secgroupId i rules).length < rules.length ∧
      insertRuleOutcome (i + (insertedCopies insertRuleOutcome secgroupId i rules).length) =
        .error e := by
  induction rules with
  | nil => intro i e h; simp [firstRuleError] at h
  | cons rule rest ih =>
    intro i e hs
    simp only [insertedCopies, firstRuleError] at hs ⊢
    cases h : insertRuleOutcome i with
    | error e1 =>
      simp only [h, Option.some.injEq] at hs
      simp [h, hs]
    | ok uuid =>
      simp only [h] at hs
      obtain ⟨h1, h2⟩ := ih (i + 1) e hs
      simp only [List.length_cons]
      refine ⟨by omega, ?_⟩
      rw [← h2]
      congr 1
      omega

theorem firstRuleError_none_of_ok (insertRuleOutcome : Nat → Except Error String)
    (rules : List SSecurityGroupRule) (hok : ∀ i, ∃ uuid, insertRuleOutcome i = .ok uuid) :
    ∀ i : Nat, firstRuleError insertRuleOutcome i rules = none := by
  induction rules with
  | nil => intro i; rfl
  | cons rule rest ih =>
    intro i
    obtain ⟨uuid, hu⟩ := hok i
    simp only [firstRuleError, hu]
    exact ih (i + 1)

/-- The four ways in which `PerformClone` ends. -/
theorem PerformClone_cases (s : Store) (self : SSecurityGroup) (userCred : TokenCredential)
    (data : JSONObject) (env : CloneEnv) :
    (data.GetString "name" = "" ∧
      PerformClone s self userCred data env =
        (s, none, some (.InputParameterError "Missing name params"))) ∨
    (data.GetString "name" ≠ "" ∧ countByName s (data.GetString "name") ≠ 0 ∧
      PerformClone s self userCred data env =
        (s, none, some (.DuplicateNameError ("Dumplicate name " ++ data.GetString "name")))) ∨
    (data.GetString "name" ≠ "" ∧ countByName s (data.GetString "name") = 0 ∧
      ∃ e, env.insertGroupOutcome = .error e ∧
        PerformClone s self userCred data env = (s, none, some e)) ∨
    (data.GetString "name" ≠ "" ∧ countByName s (data.GetString "name") = 0 ∧
      ∃ uuid, env.insertGroupOutcome = .ok uuid ∧
        PerformClone s self userCred data env =
          ({ groups := s.groups ++ [clonedGroup uuid userCred data]
             rules := s.rules ++ insertedCopies env.insertRuleOutcome uuid 0
               (getSecurityRules s self env.fetchRulesErr) },
            none,
            firstRuleError env.insertRuleOutcome 0
              (getSecurityRules s self env.fetchRulesErr))) := by
  by_cases hname : data.GetString "name" = ""
  · left
    refine ⟨hname, ?_⟩
    have hlen : (data.GetString "name").length = 0 := (length_eq_zero_iff _).mpr hname
    simp only [PerformClone, if_pos hlen]
  · right
    have hlen : ¬ (data.GetString "name").length = 0 := fun h =>
      hname ((length_eq_zero_iff _).mp h)
    by_cases hcount : countByName s (data.GetString "name") = 0
    · right
      cases hins : env.insertGroupOutcome with
      | error e =>
        left
        refine ⟨hname, hcount, e, rfl, ?_⟩
        simp [PerformClone, if_neg hlen, hcount, Store.insertGroup, hins]
      | ok uuid =>
        right
        exact ⟨hname, hcount, uuid, rfl,
          PerformClone_eq s self userCred data env uuid hname hcount hins⟩
    · left
      refine ⟨hname, hcount, ?_⟩
      simp only [PerformClone, if_neg hlen, ne_eq, hcount, not_false_eq_true, if_true]

/-! ## Clone: the name checks -/

/-- C6: whatever the source group, the store and the environment, `PerformClone` with a
missing or empty `name` returns the input-parameter error, returns no object and leaves the
store as it is; neither the store nor the environment enters into the result. -/
theorem PerformClone_missing_name (s : Store) (self : SSecurityGroup)
    (userCred : TokenCredential) (data : JSONObject) (env : CloneEnv)
    (h : data.lookup "name" = none ∨ data.lookup "name" = some "") :
    PerformClone s self userCred data env =
      (s, none, some (.InputParameterError "Missing name params")) := by
  have hname : data.GetString "name" = "" := by
    rcases h with h | h <;> simp [JSONObject.GetString, h]
  rcases PerformClone_cases s self userCred data env with h1 | h1 | h1 | h1
  · exact h1.2
  · exact absurd hname h1.1
  · exact absurd hname h1.1
  · exact absurd hname h1.1

/-- C6 at a request without a name. -/
theorem PerformClone_missing_name_witness :
    PerformClone sampleStore sampleGroup sampleCred [("description", "copy")] okCloneEnv =
      (sampleStore, none, some (.InputParameterError "Missing name params")) :=
  PerformClone_missing_name sampleStore sampleGroup sampleCred [("description", "copy")]
    okCloneEnv (Or.inl (by decide))

/-- C5: when the requested name is not empty and a group without external id, owned by the
caller's project, already has it, `PerformClone` returns the duplicate-name error and leaves
the store as it is; and of two successive clones under one new name that is free at first, by
one caller, with every insert of the first succeeding, the first returns no error and the
second returns the duplicate-name error and leaves the store as the first left it. -/
theorem PerformClone_duplicate_name :
    (∀ (s : Store) (self : SSecurityGroup) (userCred : TokenCredential) (data : JSONObject)
        (env : CloneEnv) (g : SSecurityGroup),
      data.GetString "name" ≠ "" → g ∈ s.groups → g.Name = data.GetString "name" →
      g.ExternalId = "" → g.ProjectId = userCred.TenantId →
      PerformClone s self userCred data env =
        (s, none,
          some (.DuplicateNameError ("Dumplicate name " ++ data.GetString "name")))) ∧
    (∀ (s : Store) (self self2 : SSecurityGroup) (userCred : TokenCredential)
        (data data2 : JSONObject) (env env2 : CloneEnv),
      data.GetString "name" ≠ "" → countByName s (data.GetString "name") = 0 →
      data2.GetString "name" = data.GetString "name" →
      (∃ uuid, env.insertGroupOutcome = .ok uuid) →
      (∀ i, ∃ uuid, env.insertRuleOutcome i = .ok uuid) →
      (PerformClone s self userCred data env).2.2 = none ∧
        PerformClone (PerformClone s self userCred data env).1 self2 userCred data2 env2 =
          ((PerformClone s self userCred data env).1, none,
            some (.DuplicateNameError ("Dumplicate name " ++ data.GetString "name")))) := by
  have hdup : ∀ (s : Store) (self : SSecurityGroup) (userCred : TokenCredential)
      (data : JSONObject) (env : CloneEnv) (g : SSecurityGroup),
      data.GetString "name" ≠ "" → g ∈ s.groups → g.Name = data.GetString "name" →
      PerformClone s self userCred data env =
        (s, none,
          some (.DuplicateNameError ("Dumplicate name " ++ data.GetString "name"))) := by
    intro s self userCred data env g hne hg hname
    have hcount : countByName s (data.GetString "name") ≠ 0 := by
      unfold countByName
      rw [Ne, List.length_eq_zero, List.filter_eq_nil_iff]
      intro hall
      exact hall g hg (by simpa using hname)
    rcases PerformClone_cases s self userCred data env with h1 | h1 | h1 | h1
    · exact absurd h1.1 hne
    · exact h1.2.2
    · exact absurd h1.2.1 hcount
    · exact absurd h1.2.1 hcount
  refine ⟨fun s self userCred data env g hne hg hname _ _ =>
    hdup s self userCred data env g hne hg hname, ?_⟩
  intro s self self2 userCred data data2 env env2 hne hfree hsame ⟨uuid, hins⟩ hrules
  rw [PerformClone_eq s self userCred data env uuid hne hfree hins,
    firstRuleError_none_of_ok _ _ hrules 0]
  refine ⟨rfl, ?_⟩
  rw [← hsame]
  exact hdup _ self2 userCred data2 env2 (clonedGroup uuid userCred data)
    (by rw [hsame]; exact hne) (by simp) (by rw [hsame]; rfl)

/-- C5 at a store in which the caller's group `web` exists and a request to clone under
that name, and at two successive requests to clone under the free name `web2`. -/
theorem PerformClone_duplicate_name_witness :
    PerformClone { groups := [{ sampleGroup with ExternalId := "" }], rules := [] }
        sampleGroup sampleCred [("name", "web")] okCloneEnv =
      ({ groups := [{ sampleGroup with ExternalId := "" }], rules := [] }, none,
        some (.DuplicateNameError ("Dumplicate name " ++ "web"))) ∧
    (PerformClone sampleStore sampleGroup sampleCred sampleCloneData okCloneEnv).2.2 = none ∧
    PerformClone (PerformClone sampleStore sampleGroup sampleCred sampleCloneData okCloneEnv).1
        localOnlyGroup sampleCred [("name", "web2")] okCloneEnv =
      ((PerformClone sampleStore sampleGroup sampleCred sampleCloneData okCloneEnv).1, none,
        some (.DuplicateNameError ("Dumplicate name " ++ "web2"))) :=
  ⟨PerformClone_duplicate_name.1
      { groups := [{ sampleGroup with ExternalId := "" }], rules := [] }
      sampleGroup sampleCred [("name", "web")] okCloneEnv { sampleGroup with ExternalId := "" }
      (by decide) (by decide) (by decide) (by decide) (by decide),
    PerformClone_duplicate_name.2 sampleStore sampleGroup localOnlyGroup sampleCred
      sampleCloneData [("name", "web2")] okCloneEnv okCloneEnv
      (by decide) (by decide) (by decide) ⟨"g2", rfl⟩ (fun i => ⟨_, rfl⟩)⟩

/-! ## Clone: the copied rules -/

/-- C4, counterexample: the source group has one stored rule, the listing of its rules fails,
every insert succeeds; `PerformClone` returns no error, and the new group `g2` owns no
rule. -/
theorem PerformClone_fetch_failure_copies_nothing :
    PerformClone sampleStore sampleGroup sampleCred sampleCloneData failingFetchEnv =
        ({ groups := [sampleGroup, clonedGroup "g2" sampleCred sampleCloneData],
           rules := [sampleRule] }, none, none) ∧
      getSecurityRules sampleStore sampleGroup none = [sampleRule] ∧
      getSecurityRules
        { groups := [sampleGroup, clonedGroup "g2" sampleCred sampleCloneData],
          rules := [sampleRule] }
        (clonedGroup "g2" sampleCred sampleCloneData) none = [] := by
  decide

/-- C4, amended: when `PerformClone` returns no error and the listing of the source group's
rules succeeds, the store gave the new group an id, the group table is the old one followed by
the new group (requested name and description, caller's project, no external id), the rule
table is the old one followed by as many new rules as the source group has, whose copied
fields are those of the source group's rules in the same order, each owned by the new group's
id; the new group owns exactly these rules when no rule referred to its id before, and the
source group owns the rules it owned before when its id is not the new one. -/
theorem PerformClone_copies_rules (s : Store) (self : SSecurityGroup)
    (userCred : TokenCredential) (data : JSONObject) (env : CloneEnv)
    (hok : (PerformClone s self userCred data env).2.2 = none)
    (hfetch : env.fetchRulesErr = none) :
    ∃ uuid new,
      env.insertGroupOutcome = .ok uuid ∧
      (PerformClone s self userCred data env).1.groups =
        s.groups ++ [{ Id := uuid, Name := data.GetString "name",
                       Description := data.GetString "description", ExternalId := "",
                       ProjectId := userCred.TenantId, IsDirty := false }] ∧
      (PerformClone s self userCred data env).1.rules = s.rules ++ new ∧
      new.length = (getSecurityRules s self none).length ∧
      new.map SSecurityGroupRule.copiedFields =
        (getSecurityRules s self none).map SSecurityGroupRule.copiedFields ∧
      (∀ r ∈ new, r.SecgroupID = uuid) ∧
      ((∀ r ∈ s.rules, r.SecgroupID ≠ uuid) →
        getSecurityRules (PerformClone s self userCred data env).1
          { Id := uuid, Name := data.GetString "name",
            Description := data.GetString "description", ExternalId := "",
            ProjectId := userCred.TenantId, IsDirty := false } none = new) ∧
      (self.Id ≠ uuid →
        getSecurityRules (PerformClone s self userCred data env).1 self none =
          getSecurityRules s self none) := by
  rcases PerformClone_cases s self userCred data env with h1 | h1 | h1 | h1
  · rw [h1.2] at hok; cases hok
  · rw [h1.2.2] at hok; cases hok
  · obtain ⟨e, _, he⟩ := h1.2.2
    rw [he] at hok; cases hok
  · obtain ⟨uuid, hins, heq⟩ := h1.2.2
    rw [heq] at hok ⊢
    rw [hfetch] at hok ⊢
    simp only at hok
    have hlen := insertedCopies_length_of_ok env.insertRuleOutcome uuid
      (getSecurityRules s self none) 0 hok
    have hfields := insertedCopies_fields env.insertRuleOutcome uuid
      (getSecurityRules s self none) 0
    rw [hlen, List.take_length] at hfields
    have hown := insertedCopies_owner env.insertRuleOutcome uuid
      (getSecurityRules s self none) 0
    generalize insertedCopies env.insertRuleOutcome uuid 0 (getSecurityRules s self none) =
      new at hlen hfields hown ⊢
    refine ⟨uuid, new, hins, rfl, rfl, hlen, hfields, hown, ?_, ?_⟩
    · intro hfresh
      have h1 : s.rules.filter (fun r => decide (r.SecgroupID = uuid)) = [] :=
        List.filter_eq_nil_iff.mpr (fun r hr => by simpa using hfresh r hr)
      have h2 : new.filter (fun r => decide (r.SecgroupID = uuid)) = new :=
        List.filter_eq_self.mpr (fun r hr => by simpa using hown r hr)
      simp only [getSecurityRules, List.filter_append, h1, h2, List.nil_append]
    · intro hne
      have h2 : new.filter (fun r => decide (r.SecgroupID = self.Id)) = [] :=
        List.filter_eq_nil_iff.mpr (fun r hr => by
          rw [decide_eq_true_eq, hown r hr]; exact fun e => hne e.symm)
      simp only [getSecurityRules, List.filter_append, h2, List.append_nil]

/-- C4, amended, at the clone of `sampleGroup` with its one rule. -/
theorem PerformClone_copies_rules_witness :
    ∃ uuid new,
      okCloneEnv.insertGroupOutcome = .ok uuid ∧
      (PerformClone sampleStore sampleGroup sampleCred sampleCloneData okCloneEnv).1.groups =
        sampleStore.groups ++
          [{ Id := uuid, Name := sampleCloneData.GetString "name",
             Description := sampleCloneData.GetString "description", ExternalId := "",
             ProjectId := sampleCred.TenantId, IsDirty := false }] ∧
      (PerformClone sampleStore sampleGroup sampleCred sampleCloneData okCloneEnv).1.rules =
        sampleStore.rules ++ new ∧
      new.length = (getSecurityRules sampleStore sampleGroup none).length ∧
      new.map SSecurityGroupRule.copiedFields =
        (getSecurityRules sampleStore sampleGroup none).map SSecurityGroupRule.copiedFields ∧
      (∀ r ∈ new, r.SecgroupID = uuid) ∧
      ((∀ r ∈ sampleStore.rules, r.SecgroupID ≠ uuid) →
        getSecurityRules
          (PerformClone sampleStore sampleGroup sampleCred sampleCloneData okCloneEnv).1
          { Id := uuid, Name := sampleCloneData.GetString "name",
            Description := sampleCloneData.GetString "description", ExternalId := "",
            ProjectId := sampleCred.TenantId, IsDirty := false } none = new) ∧
      (sampleGroup.Id ≠ uuid →
        getSecurityRules
          (PerformClone sampleStore sampleGroup sampleCred sampleCloneData okCloneEnv).1
          sampleGroup none = getSecurityRules sampleStore sampleGroup none) :=
  PerformClone_copies_rules sampleStore sampleGroup sampleCred sampleCloneData okCloneEnv
    (by decide) rfl

/-! ## Clone: what a failure leaves behind -/

/-- C7, counterexample: the source group has one rule, the insert of the new group succeeds
and the insert of the copy of the rule fails; `PerformClone` returns the error, and the store
afterwards holds the new group `g2`: it is not the store before the call. -/
theorem PerformClone_failure_keeps_group :
    PerformClone sampleStore sampleGroup sampleCred sampleCloneData failingRuleEnv =
        ({ groups := [sampleGroup, clonedGroup "g2" sampleCred sampleCloneData],
           rules := [sampleRule] }, none, some (.Other "insert failed")) ∧
      (PerformClone sampleStore sampleGroup sampleCred sampleCloneData failingRuleEnv).1 ≠
        sampleStore := by
  decide

/-- C7, amended: when `PerformClone` returns an error, either the error is one of the name
checks or of the insert of the new group, and the store afterwards is exactly the store before
the call; or the group was inserted and the insert of the copy of the rule at some index `j`
is the first to fail: then the error is that insert's, the group table is the old one followed
by the new group, and the rule table is the old one followed by the copies of the `j` rules
before it, each owned by the new group. -/
theorem PerformClone_failure_state (s : Store) (self : SSecurityGroup)
    (userCred : TokenCredential) (data : JSONObject) (env : CloneEnv) (e : Error)
    (herr : (PerformClone s self userCred data env).2.2 = some e) :
    ((PerformClone s self userCred data env).1 = s ∧
      (data.GetString "name" = "" ∨ countByName s (data.GetString "name") ≠ 0 ∨
        env.insertGroupOutcome = .error e)) ∨
    ∃ uuid j new,
      env.insertGroupOutcome = .ok uuid ∧
      j < (getSecurityRules s self env.fetchRulesErr).length ∧
      env.insertRuleOutcome j = .error e ∧
      (PerformClone s self userCred data env).1.groups =
        s.groups ++ [{ Id := uuid, Name := data.GetString "name",
                       Description := data.GetString "description", ExternalId := "",
                       ProjectId := userCred.TenantId, IsDirty := false }] ∧
      (PerformClone s self userCred data env).1.rules = s.rules ++ new ∧
      new.length = j ∧
      new.map SSecurityGroupRule.copiedFields =
        ((getSecurityRules s self env.fetchRulesErr).take j).map
          SSecurityGroupRule.copiedFields ∧
      ∀ r ∈ new, r.SecgroupID = uuid := by
  rcases PerformClone_cases s self userCred data env with h1 | h1 | h1 | h1
  · left
    rw [h1.2]
    exact ⟨rfl, Or.inl h1.1⟩
  · left
    rw [h1.2.2]
    exact ⟨rfl, Or.inr (Or.inl h1.2.1)⟩
  · left
    obtain ⟨e1, hins, he⟩ := h1.2.2
    rw [he] at herr ⊢
    simp only [Option.some.injEq] at herr
    exact ⟨rfl, Or.inr (Or.inr (herr ▸ hins))⟩
  · right
    obtain ⟨uuid, hins, heq⟩ := h1.2.2
    rw [heq] at herr ⊢
    simp only at herr
    obtain ⟨hlt, hfail⟩ := firstRuleError_some env.insertRuleOutcome uuid
      (getSecurityRules s self env.fetchRulesErr) 0 e herr
    rw [Nat.zero_add] at hfail
    exact ⟨uuid, _, _, hins, hlt, hfail, rfl, rfl, rfl,
      insertedCopies_fields env.insertRuleOutcome uuid _ 0,
      insertedCopies_owner env.insertRuleOutcome uuid _ 0⟩

/-- C7, amended, at the clone whose first rule insert fails. -/
theorem PerformClone_failure_state_witness :
    ((PerformClone sampleStore sampleGroup sampleCred sampleCloneData failingRuleEnv).1 =
        sampleStore ∧
      (sampleCloneData.GetString "name" = "" ∨
        countByName sampleStore (sampleCloneData.GetString "name") ≠ 0 ∨
        failingRuleEnv.insertGroupOutcome = .error (.Other "insert failed"))) ∨
    ∃ uuid j new,
      failingRuleEnv.insertGroupOutcome = .ok uuid ∧
      j < (getSecurityRules sampleStore sampleGroup failingRuleEnv.fetchRulesErr).length ∧
      failingRuleEnv.insertRuleOutcome j = .error (.Other "insert failed") ∧
      (PerformClone sampleStore sampleGroup sampleCred sampleCloneData failingRuleEnv).1.groups =
        sampleStore.groups ++
          [{ Id := uuid, Name := sampleCloneData.GetString "name",
             Description := sampleCloneData.GetString "description", ExternalId := "",
             ProjectId := sampleCred.TenantId, IsDirty := false }] ∧
      (PerformClone sampleStore sampleGroup sampleCred sampleCloneData failingRuleEnv).1.rules =
        sampleStore.rules ++ new ∧
      new.length = j ∧
      new.map SSecurityGroupRule.copiedFields =
        ((getSecurityRules sampleStore sampleGroup failingRuleEnv.fetchRulesErr).take j).map
          SSecurityGroupRule.copiedFields ∧
      ∀ r ∈ new, r.SecgroupID = uuid :=
  PerformClone_failure_state sampleStore sampleGroup sampleCred sampleCloneData failingRuleEnv
    (.Other "insert failed") (by decide)

/-! ## Clone: the returned value -/

/-- C10, counterexample: a clone under a valid, unused name in which every insert succeeds
returns no error and the object `nil`, while the new group has the id `g2`. -/
theorem PerformClone_returns_no_id :
    PerformClone sampleStore sampleGroup sampleCred sampleCloneData okCloneEnv =
      ({ groups := [sampleGroup, clonedGroup "g2" sampleCred sampleCloneData],
         rules := [sampleRule, { copyRule "g2" sampleRule with Id := "c" }] },
        none, none) ∧
      (clonedGroup "g2" sampleCred sampleCloneData).Id = "g2" := by
  decide

/-- C10, amended: for a name that is not empty and not in use, when the insert of the group
and the inserts of the rules succeed, `PerformClone` returns a nil error and a nil object; the
new group is the last row of the group table and its id is the one the store gave it. -/
theorem PerformClone_success_returns_nil (s : Store) (self : SSecurityGroup)
    (userCred : TokenCredential) (data : JSONObject) (env : CloneEnv) (uuid : String)
    (hname : data.GetString "name" ≠ "") (hfree : countByName s (data.GetString "name") = 0)
    (hins : env.insertGroupOutcome = .ok uuid)
    (hrules : ∀ i, ∃ u, env.insertRuleOutcome i = .ok u) :
    (PerformClone s self userCred data env).2.2 = none ∧
      (PerformClone s self userCred data env).2.1 = none ∧
      (PerformClone s self userCred data env).1.groups =
        s.groups ++ [{ Id := uuid, Name := data.GetString "name",
                       Description := data.GetString "description", ExternalId := "",
                       ProjectId := userCred.TenantId, IsDirty := false }] := by
  rw [PerformClone_eq s self userCred data env uuid hname hfree hins,
    firstRuleError_none_of_ok _ _ hrules 0]
  exact ⟨rfl, rfl, rfl⟩

/-- C10, amended, at the clone of `sampleGroup` under the name `web2`. -/
theorem PerformClone_success_returns_nil_witness :
    (PerformClone sampleStore sampleGroup sampleCred sampleCloneData okCloneEnv).2.2 = none ∧
      (PerformClone sampleStore sampleGroup sampleCred sampleCloneData okCloneEnv).2.1 = none ∧
      (PerformClone sampleStore sampleGroup sampleCred sampleCloneData okCloneEnv).1.groups =
        sampleStore.groups ++
          [{ Id := "g2", Name := sampleCloneData.GetString "name",
             Description := sampleCloneData.GetString "description", ExternalId := "",
             ProjectId := sampleCred.TenantId, IsDirty := false }] :=
  PerformClone_success_returns_nil sampleStore sampleGroup sampleCred sampleCloneData
    okCloneEnv "g2" (by decide) (by decide) rfl (fun i => ⟨_, rfl⟩)

end Secgroups
